import Mathlib

/-!
# Infrastructure Dependency Cascade Engine — shallow embedding

A shallow embedding of `src/services/infrastructure-cascade.ts` (the
Infrastructure Dependency Cascade Engine of the osintmonitor repository).

Modelling conventions:
* JavaScript numbers are modelled as `ℚ` (all arithmetic in the engine is
  exact on the decimal constants involved, so `ℚ` is faithful here).
* A JavaScript `Map` is modelled as an insertion-ordered association list
  (`JsMap`) with `set` replacing in place, as `Map.prototype.set` does.
* A JavaScript `Set<string>` is modelled as an insertion-ordered duplicate-free
  list (`insertUnique`).
* `String.prototype.startsWith` and `String.prototype.replace(pat, '')`
  (first-occurrence removal) are modelled on the character lists.
* The static reference datasets (`UNDERSEA_CABLES`, `PIPELINES`, `PORTS`,
  `STRATEGIC_WATERWAYS`, `COUNTRY_NAMES`) live outside the repository's `src/`
  and are read-only inputs; every definition is parameterised by a `Datasets`
  value carrying the fields the engine reads.
* Node/edge `metadata` bags: only the keys the engine itself ever reads are
  carried (`code` on country nodes; `estimatedImpact` on edges). The remaining
  metadata keys are write-only from the engine's point of view.
-/

/-- JS `s.startsWith(p)`. -/
def strStartsWith (s p : String) : Bool :=
  p.data.isPrefixOf s.data

/-- Remove the first occurrence of `pat` from a character list (helper for
JS `String.prototype.replace(pat, '')`, which replaces only the first
occurrence). -/
def removeFirstOcc (pat : List Char) : List Char → List Char
  | [] => []
  | c :: rest =>
      if pat.isPrefixOf (c :: rest) then (c :: rest).drop pat.length
      else c :: removeFirstOcc pat rest

/-- JS `s.replace(pat, '')`: remove the first occurrence of `pat` from `s`. -/
def replaceFirstStr (s pat : String) : String :=
  ⟨removeFirstOcc pat.data s.data⟩

/-- A JavaScript `Map` with string keys: an insertion-ordered association
list; `set` on an existing key replaces the value in place (keeping the
original position), on a fresh key it appends. -/
structure JsMap (β : Type) where
  entries : List (String × β)
deriving DecidableEq

namespace JsMap

/-- The empty map (`new Map()`). -/
def empty {β : Type} : JsMap β := ⟨[]⟩

/-- JS `map.get(k)` (as an `Option`). -/
def get? {β : Type} (m : JsMap β) (k : String) : Option β :=
  (m.entries.find? (fun p => p.1 = k)).map (·.2)

/-- JS `map.has(k)`. -/
def has {β : Type} (m : JsMap β) (k : String) : Bool :=
  (m.entries.find? (fun p => p.1 = k)).isSome

/-- JS `map.set(k, v)`. -/
def set {β : Type} (m : JsMap β) (k : String) (v : β) : JsMap β :=
  if m.has k then ⟨m.entries.map (fun p => if p.1 = k then (k, v) else p)⟩
  else ⟨m.entries ++ [(k, v)]⟩

/-- JS `map.values()` (in insertion order). -/
def values {β : Type} (m : JsMap β) : List β :=
  m.entries.map (·.2)

/-- JS `map.size`. -/
def size {β : Type} (m : JsMap β) : Nat :=
  m.entries.length

end JsMap

/-- JS `Set.prototype.add`: append if absent (insertion order preserved). -/
def insertUnique (l : List String) (x : String) : List String :=
  if x ∈ l then l else l ++ [x]

/-! ## Reference datasets (read-only inputs of the engine) -/

/-- One entry of a cable's `countriesServed` list. -/
structure CountryServed where
  country : String
  capacityShare : ℚ
  isRedundant : Bool
deriving DecidableEq

/-- One entry of a cable's `landingPoints` list (the engine only reads its
`country` field). -/
structure LandingPoint where
  country : String
deriving DecidableEq

/-- An `UNDERSEA_CABLES` record (the fields the cascade engine reads; the
optional arrays are modelled as lists, with `[]` for an absent array, which
is behaviourally identical everywhere the engine touches them). -/
structure UnderseaCable where
  id : String
  name : String
  countriesServed : List CountryServed
  landingPoints : List LandingPoint
deriving DecidableEq

/-- A `PIPELINES` record (fields the cascade engine reads). -/
structure Pipeline where
  id : String
  name : String
  countries : List String
deriving DecidableEq

/-- A `PORTS` record (fields the cascade engine reads). -/
structure Port where
  id : String
  name : String
deriving DecidableEq

/-- A `STRATEGIC_WATERWAYS` record (fields the cascade engine reads). -/
structure Waterway where
  id : String
  name : String
deriving DecidableEq

/-- The bundle of static reference data the engine is built over, including
the `COUNTRY_NAMES` code-to-display-name table. -/
structure Datasets where
  cables : List UnderseaCable
  pipelines : List Pipeline
  ports : List Port
  waterways : List Waterway
  countryNames : List (String × String)
deriving DecidableEq

/-- `COUNTRY_NAMES[code] || code`: table lookup with fallback to the raw code
(also on the falsy empty string, as JS `||` does). -/
def countryNameFor (table : List (String × String)) (code : String) : String :=
  match (table.find? (fun p => p.1 = code)).map (·.2) with
  | some n => if n = "" then code else n
  | none => code

/-! ## Graph data model -/

/-- The `type` discriminator of an `InfrastructureNode`. -/
inductive NodeType where
  | cable
  | pipeline
  | port
  | chokepoint
  | country
deriving DecidableEq

/-- An `InfrastructureNode` (the fields the cascade engine reads; `code` is
the `metadata.code` entry set on country nodes, `none` on the other node
kinds, whose metadata the engine never reads back). -/
structure InfrastructureNode where
  id : String
  type : NodeType
  name : String
  code : Option String := none
deriving DecidableEq

/-- The `type` discriminator of a `DependencyEdge`. -/
inductive EdgeType where
  | serves
  | lands_at
deriving DecidableEq

/-- A `DependencyEdge`; `estimatedImpact` is the `metadata.estimatedImpact`
entry (absent on edges built without it). `src`/`dst` are the source's
`from`/`to` fields (`from` and `to` are reserved words in Lean). -/
structure DependencyEdge where
  src : String
  dst : String
  type : EdgeType
  strength : ℚ
  redundancy : ℚ
  estimatedImpact : Option String := none
deriving DecidableEq

/-- The `DependencyGraph` aggregate. -/
structure DependencyGraph where
  nodes : JsMap InfrastructureNode
  edges : List DependencyEdge
  outgoing : JsMap (List DependencyEdge)
  incoming : JsMap (List DependencyEdge)
deriving DecidableEq

/-! ## Graph builder -/

/-- The empty graph the builder starts from. -/
def initialGraph : DependencyGraph :=
  { nodes := JsMap.empty, edges := [], outgoing := JsMap.empty, incoming := JsMap.empty }

/-- `addCablesAsNodes`: one `cable:`-prefixed node per cable record. -/
def addCablesAsNodes (ds : Datasets) (g : DependencyGraph) : DependencyGraph :=
  ds.cables.foldl (fun g cable =>
    let n : InfrastructureNode :=
      { id := "cable:" ++ cable.id, type := NodeType.cable, name := cable.name }
    { g with nodes := g.nodes.set ("cable:" ++ cable.id) n }) g

/-- `addPipelinesAsNodes`: one `pipeline:`-prefixed node per pipeline record. -/
def addPipelinesAsNodes (ds : Datasets) (g : DependencyGraph) : DependencyGraph :=
  ds.pipelines.foldl (fun g p =>
    let n : InfrastructureNode :=
      { id := "pipeline:" ++ p.id, type := NodeType.pipeline, name := p.name }
    { g with nodes := g.nodes.set ("pipeline:" ++ p.id) n }) g

/-- `addPortsAsNodes`: one `port:`-prefixed node per port record. -/
def addPortsAsNodes (ds : Datasets) (g : DependencyGraph) : DependencyGraph :=
  ds.ports.foldl (fun g p =>
    let n : InfrastructureNode :=
      { id := "port:" ++ p.id, type := NodeType.port, name := p.name }
    { g with nodes := g.nodes.set ("port:" ++ p.id) n }) g

/-- `addChokepointsAsNodes`: one `chokepoint:`-prefixed node per waterway. -/
def addChokepointsAsNodes (ds : Datasets) (g : DependencyGraph) : DependencyGraph :=
  ds.waterways.foldl (fun g w =>
    let n : InfrastructureNode :=
      { id := "chokepoint:" ++ w.id, type := NodeType.chokepoint, name := w.name }
    { g with nodes := g.nodes.set ("chokepoint:" ++ w.id) n }) g

/-- Country-code aliasing applied to pipeline country entries
(`c === 'USA' ? 'US' : c === 'Canada' ? 'CA' : c`). -/
def normCode (c : String) : String :=
  if c = "USA" then "US" else if c = "Canada" then "CA" else c

/-- The `Set<string>` of country codes collected by `addCountriesAsNodes`:
every cable's served countries and landing-point countries, then every
pipeline's (alias-normalised) countries, in insertion order. -/
def collectCountries (ds : Datasets) : List String :=
  ds.pipelines.foldl (fun acc p =>
    p.countries.foldl (fun a c => insertUnique a (normCode c)) acc)
    (ds.cables.foldl (fun acc cable =>
      cable.landingPoints.foldl (fun a lp => insertUnique a lp.country)
        (cable.countriesServed.foldl (fun a cs => insertUnique a cs.country) acc)) [])

/-- `addCountriesAsNodes`: one `country:`-prefixed node per collected code,
named from the `COUNTRY_NAMES` table with fallback to the code, and carrying
the code in its metadata. -/
def addCountriesAsNodes (ds : Datasets) (g : DependencyGraph) : DependencyGraph :=
  (collectCountries ds).foldl (fun g code =>
    let n : InfrastructureNode :=
      { id := "country:" ++ code, type := NodeType.country,
        name := countryNameFor ds.countryNames code, code := some code }
    { g with nodes := g.nodes.set ("country:" ++ code) n }) g

/-- `addEdge`: push onto `edges` and onto the `outgoing`/`incoming` buckets,
creating a bucket on first use. -/
def addEdge (g : DependencyGraph) (e : DependencyEdge) : DependencyGraph :=
  let outg := if g.outgoing.has e.src then g.outgoing else g.outgoing.set e.src []
  let outg := outg.set e.src ((outg.get? e.src).getD [] ++ [e])
  let inc := if g.incoming.has e.dst then g.incoming else g.incoming.set e.dst []
  let inc := inc.set e.dst ((inc.get? e.dst).getD [] ++ [e])
  { g with edges := g.edges ++ [e], outgoing := outg, incoming := inc }

/-- The `serves` edge built for one served-country entry of a cable. -/
def cableServesEdge (cable : UnderseaCable) (cs : CountryServed) : DependencyEdge :=
  { src := "cable:" ++ cable.id, dst := "country:" ++ cs.country,
    type := EdgeType.serves, strength := cs.capacityShare,
    redundancy := if cs.isRedundant then 0.5 else 0,
    estimatedImpact := some (if cs.isRedundant then "Medium - redundancy available"
      else "High - limited redundancy") }

/-- The `lands_at` edge built for one landing point of a cable. -/
def cableLandsAtEdge (cable : UnderseaCable) (lp : LandingPoint) : DependencyEdge :=
  { src := "cable:" ++ cable.id, dst := "country:" ++ lp.country,
    type := EdgeType.lands_at, strength := 0.3, redundancy := 0.5 }

/-- `buildCableCountryEdges`: per cable, a `serves` edge per served-country
entry, then a `lands_at` edge per landing point. -/
def buildCableCountryEdges (ds : Datasets) (g : DependencyGraph) : DependencyGraph :=
  ds.cables.foldl (fun g cable =>
    let g := cable.countriesServed.foldl (fun g cs => addEdge g (cableServesEdge cable cs)) g
    cable.landingPoints.foldl (fun g lp => addEdge g (cableLandsAtEdge cable lp)) g) g

/-- The `serves` edge built for one (alias-normalised) country of a pipeline. -/
def pipelineServesEdge (p : Pipeline) (code : String) : DependencyEdge :=
  { src := "pipeline:" ++ p.id, dst := "country:" ++ code,
    type := EdgeType.serves, strength := 0.2, redundancy := 0.3 }

/-- `buildPipelineCountryEdges`: per pipeline country entry, a `serves` edge,
guarded on the target country node already existing (silent skip otherwise). -/
def buildPipelineCountryEdges (ds : Datasets) (g : DependencyGraph) : DependencyGraph :=
  ds.pipelines.foldl (fun g p =>
    p.countries.foldl (fun g c =>
      let code := normCode c
      if g.nodes.has ("country:" ++ code) then addEdge g (pipelineServesEdge p code)
      else g) g) g

/-- The body of `buildDependencyGraph` on a cache miss: nodes (cables,
pipelines, ports, chokepoints, countries) then edges (cable→country,
pipeline→country). -/
def buildGraphFresh (ds : Datasets) : DependencyGraph :=
  buildPipelineCountryEdges ds (buildCableCountryEdges ds
    (addCountriesAsNodes ds (addChokepointsAsNodes ds (addPortsAsNodes ds
      (addPipelinesAsNodes ds (addCablesAsNodes ds initialGraph))))))

/-- `buildDependencyGraph` with the module-level cache made explicit: takes
the current cache content and returns the graph together with the new cache
content (a cache hit returns the cached instance unchanged). -/
def buildDependencyGraph (ds : Datasets) (cache : Option DependencyGraph) :
    DependencyGraph × Option DependencyGraph :=
  match cache with
  | some g => (g, some g)
  | none => let g := buildGraphFresh ds; (g, some g)

/-- `clearGraphCache` (the spec's `invalidateGraph`): reset the cache. -/
def clearGraphCache (_cache : Option DependencyGraph) : Option DependencyGraph :=
  none

/-! ## Cascade simulator -/

/-- `CascadeImpactLevel`. -/
inductive CascadeImpactLevel where
  | critical
  | high
  | medium
  | low
deriving DecidableEq

/-- `categorizeImpact`: strict thresholds on the impact strength. -/
def categorizeImpact (strength : ℚ) : CascadeImpactLevel :=
  if strength > 0.8 then CascadeImpactLevel.critical
  else if strength > 0.5 then CascadeImpactLevel.high
  else if strength > 0.2 then CascadeImpactLevel.medium
  else CascadeImpactLevel.low

/-- `edge.strength * disruptionLevel * (1 - (edge.redundancy || 0))`; the
`|| 0` is the identity here since `redundancy` is always present and
`0 || 0` is `0` in JS. -/
def impactStrength (strength disruptionLevel redundancy : ℚ) : ℚ :=
  strength * disruptionLevel * (1 - redundancy)

/-- A `CascadeAffectedNode` entry. -/
structure CascadeAffectedNode where
  node : InfrastructureNode
  impactLevel : CascadeImpactLevel
  pathLength : Nat
  dependencyChain : List String
  redundancyAvailable : Bool
  estimatedRecovery : Option String
deriving DecidableEq

/-- The affected-node entry recorded for an edge that passed the
missing-target and noise-floor checks. -/
def mkAffectedEntry (target : InfrastructureNode) (e : DependencyEdge) (d : ℚ)
    (depth : Nat) (path : List String) : CascadeAffectedNode :=
  { node := target,
    impactLevel := categorizeImpact (impactStrength e.strength d e.redundancy),
    pathLength := depth + 1,
    dependencyChain := path ++ [e.dst],
    redundancyAvailable := decide (e.redundancy > 0.3),
    estimatedRecovery := e.estimatedImpact }

/-- A BFS work-queue item `{ nodeId, depth, path }`. -/
structure QItem where
  nodeId : String
  depth : Nat
  path : List String
deriving DecidableEq

/-- The mutable state of the BFS: the `affected` map, the `visited` set and
the work queue. -/
structure BfsState where
  affected : JsMap CascadeAffectedNode
  visited : List String
  queue : List QItem
deriving DecidableEq

/-- The inner `for (const edge of dependents)` loop of `calculateCascade`:
skip already-visited targets, mark visited, drop missing-target or
below-noise-floor propagations, record the affected entry and enqueue. -/
def expandEdges (g : DependencyGraph) (d : ℚ) (depth : Nat) (path : List String) :
    List DependencyEdge → BfsState → BfsState
  | [], s => s
  | e :: es, s =>
    if e.dst ∈ s.visited then expandEdges g d depth path es s
    else
      let s := { s with visited := s.visited ++ [e.dst] }
      match g.nodes.get? e.dst with
      | none => expandEdges g d depth path es s
      | some target =>
        if impactStrength e.strength d e.redundancy < 0.05 then
          expandEdges g d depth path es s
        else
          expandEdges g d depth path es
            { affected := s.affected.set e.dst (mkAffectedEntry target e d depth path),
              visited := s.visited,
              queue := s.queue ++ [⟨e.dst, depth + 1, path ++ [e.dst]⟩] }

/-- The `while (queue.length > 0)` loop of `calculateCascade`, with explicit
fuel. A node id is enqueued only when it is first added to the visited set,
so the loop dequeues at most `1 + g.edges.length` items; any fuel of at
least `g.edges.length + 2` therefore runs the loop to queue exhaustion,
matching the source's unbounded `while`. -/
def cascadeLoop (g : DependencyGraph) (d : ℚ) : Nat → BfsState → BfsState
  | 0, s => s
  | fuel + 1, s =>
    match s.queue with
    | [] => s
    | item :: rest =>
      if 3 ≤ item.depth then cascadeLoop g d fuel { s with queue := rest }
      else
        cascadeLoop g d fuel
          (expandEdges g d item.depth item.path ((g.outgoing.get? item.nodeId).getD [])
            { s with queue := rest })

/-- The fuel `calculateCascade` runs `cascadeLoop` with (see `cascadeLoop`). -/
def cascadeFuel (g : DependencyGraph) : Nat :=
  g.edges.length + 2

/-- `getCapacityForCountry`: the source cable's capacity share for the
country (0 when absent, as `?.capacityShare || 0` yields), or the fixed
placeholder 0.1 for non-cable sources. -/
def getCapacityForCountry (cables : List UnderseaCable) (sourceId countryCode : String) : ℚ :=
  if strStartsWith sourceId "cable:" then
    let cableId := replaceFirstStr sourceId "cable:"
    match cables.find? (fun c => c.id = cableId) with
    | some cable =>
      match cable.countriesServed.find? (fun cs => cs.country = countryCode) with
      | some countryData => countryData.capacityShare
      | none => 0
    | none => 0
  else 0.1

/-- A redundancy candidate `{ id, name, capacityShare }`. -/
structure RedundancyCandidate where
  id : String
  name : String
  capacityShare : ℚ
deriving DecidableEq

/-- `findRedundancies`: for a resolvable cable source, every other cable
whose served-country set overlaps the source cable's, with the mean capacity
share over the overlapping entries, truncated to the first five in dataset
order; `[]` for non-cable or unresolvable sources. -/
def findRedundancies (cables : List UnderseaCable) (sourceId : String) :
    List RedundancyCandidate :=
  if strStartsWith sourceId "cable:" then
    let cableId := replaceFirstStr sourceId "cable:"
    match cables.find? (fun c => c.id = cableId) with
    | none => []
    | some sourceCable =>
      let sourceCountries := sourceCable.countriesServed.map (·.country)
      let alternatives := cables.foldl (fun (acc : List RedundancyCandidate) cable =>
        if cable.id = cableId then acc
        else
          let shared : List CountryServed :=
            cable.countriesServed.filter (fun cs => sourceCountries.contains cs.country)
          if shared.length > 0 then
            acc ++ [{ id := cable.id, name := cable.name,
                      capacityShare := (shared.map (·.capacityShare)).sum / (shared.length : ℚ) }]
          else acc) []
      alternatives.take 5
  else []

/-- A `CascadeCountryImpact` entry. -/
structure CascadeCountryImpact where
  country : String
  countryName : String
  impactLevel : CascadeImpactLevel
  affectedCapacity : ℚ
deriving DecidableEq

/-- The `order = { critical: 0, high: 1, medium: 2, low: 3 }` rank map used
by the country-impact comparator. -/
def severityOrderIdx : CascadeImpactLevel → Nat
  | CascadeImpactLevel.critical => 0
  | CascadeImpactLevel.high => 1
  | CascadeImpactLevel.medium => 2
  | CascadeImpactLevel.low => 3

/-- The `a` precedes-or-ties-`b` relation of the comparator
`(order[a] - order[b]) || (b.affectedCapacity - a.affectedCapacity)`:
severity rank ascending, capacity descending on ties. -/
def countryImpactLE (a b : CascadeCountryImpact) : Bool :=
  if severityOrderIdx a.impactLevel = severityOrderIdx b.impactLevel then
    decide (b.affectedCapacity ≤ a.affectedCapacity)
  else decide (severityOrderIdx a.impactLevel < severityOrderIdx b.impactLevel)

/-- `countryImpactLE` as a relation. `Array.prototype.sort` is a stable
sort, and for a total-preorder comparator (which this one is) every stable
sort returns the same list, so the stable `List.insertionSort` by this
relation is the exact model of the source's sort call. -/
def countryImpactRel (a b : CascadeCountryImpact) : Prop :=
  countryImpactLE a b = true

instance : DecidableRel countryImpactRel :=
  fun a b => inferInstanceAs (Decidable (countryImpactLE a b = true))

/-- The country code read back from an affected country node:
`(metadata?.code as string) || nodeId.replace('country:', '')` (the fallback
also fires on the falsy empty string). -/
def countryCodeOf (nodeId : String) (node : InfrastructureNode) : String :=
  match node.code with
  | some c => if c = "" then replaceFirstStr nodeId "country:" else c
  | none => replaceFirstStr nodeId "country:"

/-- The `countriesAffected` list before sorting: the country-typed affected
entries, in `affected`-map insertion order, each with its code, name, impact
level and `getCapacityForCountry` capacity. -/
def countryImpactsOf (cables : List UnderseaCable) (sourceId : String)
    (affectedEntries : List (String × CascadeAffectedNode)) : List CascadeCountryImpact :=
  affectedEntries.filterMap (fun p =>
    if p.2.node.type = NodeType.country then
      let code := countryCodeOf p.1 p.2.node
      some { country := code, countryName := p.2.node.name, impactLevel := p.2.impactLevel,
             affectedCapacity := getCapacityForCountry cables sourceId code }
    else none)

/-- A `CascadeResult`. -/
structure CascadeResult where
  source : InfrastructureNode
  affectedNodes : List CascadeAffectedNode
  countriesAffected : List CascadeCountryImpact
  redundancies : List RedundancyCandidate
deriving DecidableEq

/-- The initial BFS state of `calculateCascade`: `visited = {sourceId}` and
the queue holding `(sourceId, depth 0, path [sourceId])`. -/
def initState (sourceId : String) : BfsState :=
  { affected := JsMap.empty, visited := [sourceId], queue := [⟨sourceId, 0, [sourceId]⟩] }

/-- The BFS state after the `while` loop of `calculateCascade` has drained
the queue. -/
def finalState (g : DependencyGraph) (sourceId : String) (d : ℚ) : BfsState :=
  cascadeLoop g d (cascadeFuel g) (initState sourceId)

/-- `calculateCascade` against an explicit graph (the cable dataset is still
needed for capacity lookup and redundancy analysis). -/
def calculateCascadeOnGraph (cables : List UnderseaCable) (g : DependencyGraph)
    (sourceId : String) (disruptionLevel : ℚ) : Option CascadeResult :=
  match g.nodes.get? sourceId with
  | none => none
  | some source =>
    some { source := source,
           affectedNodes := (finalState g sourceId disruptionLevel).affected.values,
           countriesAffected :=
             List.insertionSort countryImpactRel
               (countryImpactsOf cables sourceId
                 (finalState g sourceId disruptionLevel).affected.entries),
           redundancies := findRedundancies cables sourceId }

/-- `calculateCascade` (the spec's `simulateCascade`; default
`disruptionLevel = 1.0` in the source). It consumes the cached graph, which
can only ever hold `buildGraphFresh ds`, so the fresh build is its
denotation. -/
def calculateCascade (ds : Datasets) (sourceId : String) (disruptionLevel : ℚ) :
    Option CascadeResult :=
  calculateCascadeOnGraph ds.cables (buildGraphFresh ds) sourceId disruptionLevel

/-! ## Spec-side reference definition (for the `findRedundancies` refinement) -/

/-- Following the spec's words for `findRedundancies`: every other cable
whose served-country set overlaps the source cable's yields a candidate
carrying the mean capacity share over the overlapping entries, in dataset
iteration order (before the take-five truncation). -/
def findRedundanciesSpec (cables : List UnderseaCable) (cableId : String)
    (sourceCountries : List String) : List RedundancyCandidate :=
  (cables.filter (fun c => c.id != cableId)).filterMap (fun cable =>
    if (cable.countriesServed.filter (fun cs => sourceCountries.contains cs.country)).length > 0
    then
      some { id := cable.id, name := cable.name,
             capacityShare :=
               ((cable.countriesServed.filter
                   (fun cs => sourceCountries.contains cs.country)).map (·.capacityShare)).sum /
                 ((cable.countriesServed.filter
                   (fun cs => sourceCountries.contains cs.country)).length : ℚ) }
    else none)

/-- An edge sitting in one of the graph's `outgoing` buckets (the edges the
BFS can ever traverse). -/
def inOutgoingBucket (g : DependencyGraph) (e : DependencyEdge) : Prop :=
  ∃ k l, g.outgoing.get? k = some l ∧ e ∈ l

/-! ## Concrete test data (for the scenario claims and witnesses) -/

/-- The spec's single-hop scenario cable: one cable serving two countries
with capacity shares 0.6 (not redundant) and 0.4 (redundant). -/
def cableOne : UnderseaCable :=
  { id := "c1", name := "Cable One",
    countriesServed := [⟨"A", 6/10, false⟩, ⟨"B", 4/10, true⟩],
    landingPoints := [] }

/-- The single-hop scenario datasets: just `cableOne`. -/
def scenarioDS : Datasets :=
  { cables := [cableOne], pipelines := [], ports := [], waterways := [], countryNames := [] }

/-- A second cable overlapping `cableOne` on country B (for exercising the
redundancy analyzer). -/
def cableBeta : UnderseaCable :=
  { id := "beta", name := "Beta",
    countriesServed := [⟨"B", 1/2, false⟩, ⟨"C", 1/4, false⟩],
    landingPoints := [] }

/-- A pipeline with an aliased country entry (for exercising the pipeline
edge builder). -/
def pipelineOne : Pipeline :=
  { id := "p1", name := "Pipe One", countries := ["USA", "X"] }

/-- A dataset touching every reference kind at once. -/
def fullDS : Datasets :=
  { cables := [cableOne, cableBeta], pipelines := [pipelineOne],
    ports := [⟨"pt1", "Port One"⟩], waterways := [⟨"w1", "Waterway One"⟩],
    countryNames := [("US", "United States")] }

/-- The cascade result of the single-hop scenario (`scenarioDS`,
source `cable:c1`, disruption 1). -/
def scenarioResult : CascadeResult :=
  { source := { id := "cable:c1", type := NodeType.cable, name := "Cable One" },
    affectedNodes := [
      { node := { id := "country:A", type := NodeType.country, name := "A", code := some "A" },
        impactLevel := CascadeImpactLevel.high, pathLength := 1,
        dependencyChain := ["cable:c1", "country:A"], redundancyAvailable := false,
        estimatedRecovery := some "High - limited redundancy" },
      { node := { id := "country:B", type := NodeType.country, name := "B", code := some "B" },
        impactLevel := CascadeImpactLevel.low, pathLength := 1,
        dependencyChain := ["cable:c1", "country:B"], redundancyAvailable := true,
        estimatedRecovery := some "Medium - redundancy available" } ],
    countriesAffected := [
      { country := "A", countryName := "A", impactLevel := CascadeImpactLevel.high,
        affectedCapacity := 6/10 },
      { country := "B", countryName := "B", impactLevel := CascadeImpactLevel.low,
        affectedCapacity := 4/10 } ],
    redundancies := [] }

/-- The cascade result of the single-hop scenario at disruption level 0:
every propagation is below the noise floor, so nothing is affected. -/
def scenarioZeroResult : CascadeResult :=
  { source := { id := "cable:c1", type := NodeType.cable, name := "Cable One" },
    affectedNodes := [], countriesAffected := [], redundancies := [] }

/-- Keys that may own an `outgoing` bucket in a built graph. -/
def isInfraKey (k : String) : Prop :=
  strStartsWith k "cable:" = true ∨ strStartsWith k "pipeline:" = true

/-- Outgoing-bucket shape invariant of built graphs: every bucket key is an
infra key and every bucketed edge points at a `country:`-prefixed id. -/
def OutBucketsOK (g : DependencyGraph) : Prop :=
  ∀ kv ∈ g.outgoing.entries,
    isInfraKey kv.1 ∧ ∀ e ∈ kv.2, strStartsWith e.dst "country:" = true

/-- Node-map shape invariant of built graphs: each entry's node type matches
its key prefix. -/
def NodesOK (g : DependencyGraph) : Prop :=
  ∀ kv ∈ g.nodes.entries,
    (strStartsWith kv.1 "cable:" = true ∧ kv.2.type = NodeType.cable) ∨
    (strStartsWith kv.1 "pipeline:" = true ∧ kv.2.type = NodeType.pipeline) ∨
    (strStartsWith kv.1 "port:" = true ∧ kv.2.type = NodeType.port) ∨
    (strStartsWith kv.1 "chokepoint:" = true ∧ kv.2.type = NodeType.chokepoint) ∨
    (strStartsWith kv.1 "country:" = true ∧ kv.2.type = NodeType.country)

/-! ## Map, set and string lemmas -/

theorem jsMap_has_iff {β : Type} (m : JsMap β) (k : String) :
    m.has k = true ↔ ∃ p ∈ m.entries, p.1 = k := by
  unfold JsMap.has
  rw [Option.isSome_iff_exists]
  constructor
  · rintro ⟨p, hp⟩
    exact ⟨p, List.mem_of_find?_eq_some hp, by simpa using List.find?_some hp⟩
  · rintro ⟨p, hp, hk⟩
    have : (m.entries.find? (fun q => q.1 = k)).isSome := by
      rw [List.find?_isSome]
      exact ⟨p, hp, by simpa using hk⟩
    rcases Option.isSome_iff_exists.mp this with ⟨q, hq⟩
    exact ⟨q, hq⟩

theorem jsMap_get?_eq_some {β : Type} (m : JsMap β) (k : String) (v : β)
    (h : m.get? k = some v) : ∃ p ∈ m.entries, p.1 = k ∧ p.2 = v := by
  unfold JsMap.get? at h
  rcases Option.map_eq_some'.mp h with ⟨p, hp, hpv⟩
  exact ⟨p, List.mem_of_find?_eq_some hp, by simpa using List.find?_some hp, hpv⟩

theorem jsMap_get?_eq_none {β : Type} (m : JsMap β) (k : String)
    (h : ∀ p ∈ m.entries, p.1 ≠ k) : m.get? k = none := by
  unfold JsMap.get?
  rw [Option.map_eq_none', List.find?_eq_none]
  intro p hp
  simpa using h p hp

theorem jsMap_has_set_self {β : Type} (m : JsMap β) (k : String) (v : β) :
    (m.set k v).has k = true := by
  unfold JsMap.set
  split
  · rename_i hhas
    rcases (jsMap_has_iff m k).mp hhas with ⟨p, hp, hk⟩
    rw [jsMap_has_iff]
    have hval : (fun q => if q.1 = k then (k, v) else q) p = (k, v) := by simp [hk]
    have hmem := List.mem_map_of_mem (fun q => if q.1 = k then (k, v) else q) hp
    rw [hval] at hmem
    exact ⟨(k, v), hmem, rfl⟩
  · rw [jsMap_has_iff]
    exact ⟨(k, v), by simp, rfl⟩

theorem jsMap_has_set_of_has {β : Type} (m : JsMap β) (k k' : String) (v : β)
    (h : m.has k = true) : (m.set k' v).has k = true := by
  rcases (jsMap_has_iff m k).mp h with ⟨p, hp, hk⟩
  unfold JsMap.set
  split
  · rw [jsMap_has_iff]
    have hmem := List.mem_map_of_mem (fun q => if q.1 = k' then (k', v) else q) hp
    by_cases hpk : p.1 = k'
    · have hval : (fun q => if q.1 = k' then (k', v) else q) p = (k', v) := by simp [hpk]
      rw [hval] at hmem
      exact ⟨(k', v), hmem, by rw [← hpk, hk]⟩
    · have hval : (fun q => if q.1 = k' then (k', v) else q) p = p := by simp [hpk]
      rw [hval] at hmem
      exact ⟨p, hmem, hk⟩
  · rw [jsMap_has_iff]
    exact ⟨p, by simp [hp], hk⟩

theorem jsMap_values_set_mem {β : Type} (m : JsMap β) (k : String) (v x : β)
    (h : x ∈ (m.set k v).values) : x = v ∨ x ∈ m.values := by
  unfold JsMap.set at h
  unfold JsMap.values at h ⊢
  split at h
  · simp only [List.map_map, List.mem_map] at h
    rcases h with ⟨p, hp, hx⟩
    by_cases hpk : p.1 = k
    · left
      simp only [Function.comp, hpk, if_pos] at hx
      exact hx.symm
    · right
      rw [List.mem_map]
      refine ⟨p, hp, ?_⟩
      simpa [Function.comp, hpk] using hx
  · simp only [List.map_append, List.mem_append, List.map_cons, List.map_nil] at h
    rcases h with h | h
    · right; exact h
    · left; simpa using h

theorem jsMap_mem_entries_set {β : Type} (m : JsMap β) (k : String) (v : β)
    (p : String × β) (h : p ∈ (m.set k v).entries) : p = (k, v) ∨ p ∈ m.entries := by
  unfold JsMap.set at h
  split at h
  · simp only [List.mem_map] at h
    rcases h with ⟨q, hq, hx⟩
    by_cases hqk : q.1 = k
    · left
      rw [if_pos hqk] at hx
      exact hx.symm
    · right
      rw [if_neg hqk] at hx
      exact hx ▸ hq
  · rcases List.mem_append.mp h with h | h
    · right; exact h
    · left; simpa using h

theorem mem_insertUnique_self (l : List String) (x : String) : x ∈ insertUnique l x := by
  unfold insertUnique
  split
  · assumption
  · simp

theorem mem_insertUnique_of_mem (l : List String) (x y : String) (h : x ∈ l) :
    x ∈ insertUnique l y := by
  unfold insertUnique
  split
  · assumption
  · simp [h]

theorem strStartsWith_append (p r : String) : strStartsWith (p ++ r) p = true := by
  unfold strStartsWith
  rw [List.isPrefixOf_iff_prefix]
  exact ⟨r.data, rfl⟩

theorem startsWith_disjoint {k p q : String} (hp : strStartsWith k p = true)
    (hq : strStartsWith k q = true) (h1 : p.data.isPrefixOf q.data = false)
    (h2 : q.data.isPrefixOf p.data = false) : False := by
  unfold strStartsWith at hp hq
  rw [List.isPrefixOf_iff_prefix] at hp hq
  rcases List.prefix_or_prefix_of_prefix hp hq with h | h
  · rw [← List.isPrefixOf_iff_prefix] at h
    simp [h1] at h
  · rw [← List.isPrefixOf_iff_prefix] at h
    simp [h2] at h

/-! ## Cascade loop lemmas -/

theorem expandEdges_values_mem (g : DependencyGraph) (d : ℚ) (depth : Nat)
    (path : List String) :
    ∀ (es : List DependencyEdge) (s : BfsState) (x : CascadeAffectedNode),
      x ∈ (expandEdges g d depth path es s).affected.values →
      x ∈ s.affected.values ∨ ∃ e ∈ es, ∃ target, g.nodes.get? e.dst = some target ∧
        ¬ impactStrength e.strength d e.redundancy < 0.05 ∧
        x = mkAffectedEntry target e d depth path := by
  intro es
  induction es with
  | nil => intro s x h; exact Or.inl h
  | cons e es ih =>
    intro s x h
    unfold expandEdges at h
    split at h
    · rcases ih _ _ h with h' | ⟨e', he', rest⟩
      · exact Or.inl h'
      · exact Or.inr ⟨e', List.mem_cons_of_mem _ he', rest⟩
    · split at h
      · rcases ih _ _ h with h' | ⟨e', he', rest⟩
        · exact Or.inl h'
        · exact Or.inr ⟨e', List.mem_cons_of_mem _ he', rest⟩
      · rename_i target htgt
        split at h
        · rcases ih _ _ h with h' | ⟨e', he', rest⟩
          · exact Or.inl h'
          · exact Or.inr ⟨e', List.mem_cons_of_mem _ he', rest⟩
        · rename_i himp
          rcases ih _ _ h with h' | ⟨e', he', rest⟩
          · rcases jsMap_values_set_mem _ _ _ _ h' with hx | hx
            · exact Or.inr ⟨e, List.mem_cons_self _ _, target, htgt, himp, hx⟩
            · exact Or.inl hx
          · exact Or.inr ⟨e', List.mem_cons_of_mem _ he', rest⟩

theorem cascadeLoop_values_mem (g : DependencyGraph) (d : ℚ) :
    ∀ (fuel : Nat) (s : BfsState) (x : CascadeAffectedNode),
      x ∈ (cascadeLoop g d fuel s).affected.values →
      x ∈ s.affected.values ∨ ∃ depth, depth < 3 ∧ ∃ path, ∃ e, inOutgoingBucket g e ∧
        ∃ target, g.nodes.get? e.dst = some target ∧
          ¬ impactStrength e.strength d e.redundancy < 0.05 ∧
          x = mkAffectedEntry target e d depth path := by
  intro fuel
  induction fuel with
  | zero => intro s x h; exact Or.inl h
  | succ fuel ih =>
    intro s x h
    unfold cascadeLoop at h
    split at h
    · exact Or.inl h
    · rename_i item rest _
      split at h
      · rcases ih _ _ h with h' | h'
        · exact Or.inl h'
        · exact Or.inr h'
      · rename_i hdep
        rcases ih _ _ h with h' | h'
        · rcases expandEdges_values_mem g d item.depth item.path _ _ _ h' with
            h'' | ⟨e, he, target, ht, himp, hx⟩
          · exact Or.inl h''
          · refine Or.inr ⟨item.depth, by omega, item.path, e, ?_, target, ht, himp, hx⟩
            cases hout : g.outgoing.get? item.nodeId with
            | none => rw [hout] at he; simp at he
            | some l =>
              refine ⟨item.nodeId, l, hout, ?_⟩
              rw [hout] at he
              simpa using he
        · exact Or.inr h'

theorem impactStrength_zero_disruption (s r : ℚ) : impactStrength s 0 r = 0 := by
  unfold impactStrength; ring

theorem expandEdges_zero_disruption (g : DependencyGraph) (depth : Nat)
    (path : List String) :
    ∀ (es : List DependencyEdge) (s : BfsState),
      (expandEdges g 0 depth path es s).affected = s.affected ∧
      (expandEdges g 0 depth path es s).queue = s.queue := by
  intro es
  induction es with
  | nil => intro s; exact ⟨rfl, rfl⟩
  | cons e es ih =>
    intro s
    unfold expandEdges
    split
    · exact ih s
    · split
      · exact ih _
      · split
        · exact ih _
        · rename_i himp
          exact absurd (by rw [impactStrength_zero_disruption]; norm_num) himp

theorem cascadeLoop_zero_disruption (g : DependencyGraph) :
    ∀ (fuel : Nat) (s : BfsState), (cascadeLoop g 0 fuel s).affected = s.affected := by
  intro fuel
  induction fuel with
  | zero => intro s; rfl
  | succ fuel ih =>
    intro s
    unfold cascadeLoop
    split
    · rfl
    · rename_i item rest _
      split
      · exact ih _
      · rw [ih _]
        exact (expandEdges_zero_disruption g item.depth item.path _ _).1

/-! ## Destructuring `calculateCascade` and scenario computations -/

theorem calculateCascadeOnGraph_some (cables : List UnderseaCable) (g : DependencyGraph)
    (src : String) (d : ℚ) (r : CascadeResult)
    (h : calculateCascadeOnGraph cables g src d = some r) :
    ∃ source, g.nodes.get? src = some source ∧ r.source = source ∧
      r.affectedNodes = (finalState g src d).affected.values ∧
      r.countriesAffected = List.insertionSort countryImpactRel
        (countryImpactsOf cables src (finalState g src d).affected.entries) ∧
      r.redundancies = findRedundancies cables src := by
  unfold calculateCascadeOnGraph at h
  cases hg : g.nodes.get? src with
  | none => rw [hg] at h; cases h
  | some source =>
    rw [hg] at h
    have hr := Option.some.inj h
    exact ⟨source, rfl, by rw [← hr], by rw [← hr], by rw [← hr], by rw [← hr]⟩

theorem scenario_calc_eq : calculateCascade scenarioDS "cable:c1" 1 = some scenarioResult := by
  norm_num +decide [calculateCascade, calculateCascadeOnGraph, buildGraphFresh, addCablesAsNodes,
    addPipelinesAsNodes, addPortsAsNodes, addChokepointsAsNodes, addCountriesAsNodes,
    collectCountries, insertUnique, countryNameFor, buildCableCountryEdges,
    buildPipelineCountryEdges, addEdge, cableServesEdge, cableLandsAtEdge, initialGraph,
    JsMap.empty, JsMap.set, JsMap.has, JsMap.get?, JsMap.values, JsMap.size,
    finalState, initState, cascadeLoop, cascadeFuel, expandEdges, mkAffectedEntry,
    impactStrength, categorizeImpact, countryImpactsOf, countryCodeOf, getCapacityForCountry,
    findRedundancies, strStartsWith, replaceFirstStr, removeFirstOcc, scenarioDS, cableOne,
    scenarioResult, List.insertionSort, List.orderedInsert, countryImpactRel, countryImpactLE,
    severityOrderIdx, List.foldl, List.find?, List.filterMap, List.map, List.take, List.filter,
    List.sum, Option.map, Option.getD, List.isPrefixOf]

theorem scenario_zero_eq :
    calculateCascade scenarioDS "cable:c1" 0 = some scenarioZeroResult := by
  norm_num +decide [calculateCascade, calculateCascadeOnGraph, buildGraphFresh, addCablesAsNodes,
    addPipelinesAsNodes, addPortsAsNodes, addChokepointsAsNodes, addCountriesAsNodes,
    collectCountries, insertUnique, countryNameFor, buildCableCountryEdges,
    buildPipelineCountryEdges, addEdge, cableServesEdge, cableLandsAtEdge, initialGraph,
    JsMap.empty, JsMap.set, JsMap.has, JsMap.get?, JsMap.values, JsMap.size,
    finalState, initState, cascadeLoop, cascadeFuel, expandEdges, mkAffectedEntry,
    impactStrength, categorizeImpact, countryImpactsOf, countryCodeOf, getCapacityForCountry,
    findRedundancies, strStartsWith, replaceFirstStr, removeFirstOcc, scenarioDS, cableOne,
    scenarioZeroResult, List.insertionSort, List.orderedInsert, countryImpactRel,
    countryImpactLE, severityOrderIdx, List.foldl, List.find?, List.filterMap, List.map,
    List.take, List.filter, List.sum, Option.map, Option.getD, List.isPrefixOf]

/-! ## Claim theorems: noise floor and depth bound -/

/-- Claim C3: for every source id existing in the graph and every disruption
level, every affected-node entry of `simulateCascade` has `pathLength` at
most 3 — nodes dequeued at depth 3 or more are never expanded, so no entry
is recorded beyond three hops from the source. -/
theorem cascade_depth_bound (ds : Datasets) (sourceId : String) (d : ℚ)
    (r : CascadeResult) (h : calculateCascade ds sourceId d = some r) :
    ∀ a ∈ r.affectedNodes, a.pathLength ≤ 3 := by
  unfold calculateCascade at h
  rcases calculateCascadeOnGraph_some _ _ _ _ _ h with ⟨source, _, _, haff, _, _⟩
  intro a ha
  rw [haff] at ha
  unfold finalState at ha
  rcases cascadeLoop_values_mem _ _ _ _ _ ha with h0 |
    ⟨depth, hdep, path, e, _, target, _, _, hx⟩
  · simp [initState, JsMap.empty, JsMap.values] at h0
  · rw [hx]
    show depth + 1 ≤ 3
    omega

/-- Witness for `cascade_depth_bound` at the single-hop scenario. -/
theorem cascade_depth_bound_witness :
    calculateCascade scenarioDS "cable:c1" 1 = some scenarioResult ∧
    ∀ a ∈ scenarioResult.affectedNodes, a.pathLength ≤ 3 :=
  ⟨scenario_calc_eq, cascade_depth_bound scenarioDS "cable:c1" 1 scenarioResult scenario_calc_eq⟩

/-- Claim C2: every affected-node entry of `simulateCascade` stems from an
edge whose impact strength `edge.strength * disruptionLevel *
(1 - edge.redundancy)` is at least 0.05 (and its level is that strength's
categorisation); at `disruptionLevel = 0` the affected set is empty while an
existing source id still yields a success, not the not-found signal. -/
theorem cascade_noise_floor (ds : Datasets) (sourceId : String) (d : ℚ)
    (r : CascadeResult) (h : calculateCascade ds sourceId d = some r) :
    (∀ a ∈ r.affectedNodes, ∃ e, inOutgoingBucket (buildGraphFresh ds) e ∧
        (buildGraphFresh ds).nodes.get? e.dst = some a.node ∧
        0.05 ≤ impactStrength e.strength d e.redundancy ∧
        a.impactLevel = categorizeImpact (impactStrength e.strength d e.redundancy)) ∧
    (d = 0 → r.affectedNodes = []) ∧
    (∀ src' source', (buildGraphFresh ds).nodes.get? src' = some source' →
      calculateCascade ds src' 0 ≠ none) := by
  unfold calculateCascade at h
  rcases calculateCascadeOnGraph_some _ _ _ _ _ h with ⟨source, hs, hsrc, haff, hcty, hred⟩
  refine ⟨?_, ?_, ?_⟩
  · intro a ha
    rw [haff] at ha
    unfold finalState at ha
    rcases cascadeLoop_values_mem _ _ _ _ _ ha with h0 |
      ⟨depth, hdep, path, e, hbucket, target, ht, himp, hx⟩
    · simp [initState, JsMap.empty, JsMap.values] at h0
    · refine ⟨e, hbucket, ?_, not_lt.mp himp, ?_⟩
      · rw [hx]
        exact ht
      · rw [hx]
        rfl
  · intro hd
    subst hd
    rw [haff]
    unfold finalState
    rw [cascadeLoop_zero_disruption]
    rfl
  · intro src' source' hg
    unfold calculateCascade calculateCascadeOnGraph
    rw [hg]
    simp

/-- Witness for `cascade_noise_floor` at the single-hop scenario with
disruption level 0. -/
theorem cascade_noise_floor_witness :
    calculateCascade scenarioDS "cable:c1" 0 = some scenarioZeroResult ∧
    scenarioZeroResult.affectedNodes = [] :=
  ⟨scenario_zero_eq,
   (cascade_noise_floor scenarioDS "cable:c1" 0 scenarioZeroResult scenario_zero_eq).2.1 rfl⟩

/-! ## Claim theorems: scenario, not-found, caching, monotonicity -/

/-- Claim C1: on the graph built from one cable serving country A (share
0.6, not redundant) and country B (share 0.4, redundant, redundancy 0.5),
`simulateCascade` at disruption level 1 yields exactly two country-impact
entries: A at level `high` (impact strength 0.6) and B at level `low`
(impact strength 0.4 * (1 - 0.5) = 0.2, and 0.2 is not > 0.2 under the
strict thresholds). -/
theorem scenario_single_hop_cable_disruption :
    ((calculateCascade scenarioDS "cable:c1" 1).map (fun r =>
        r.countriesAffected.map (fun ci => (ci.country, ci.impactLevel, ci.affectedCapacity)))) =
      some [("A", CascadeImpactLevel.high, 6/10), ("B", CascadeImpactLevel.low, 4/10)] ∧
    impactStrength (6/10) 1 0 = 6/10 ∧
    categorizeImpact (6/10) = CascadeImpactLevel.high ∧
    impactStrength (4/10) 1 (5/10) = 2/10 ∧
    categorizeImpact (2/10) = CascadeImpactLevel.low ∧
    ¬ ((2/10 : ℚ) > 2/10) := by
  refine ⟨?_, by unfold impactStrength; norm_num, by unfold categorizeImpact; norm_num,
    by unfold impactStrength; norm_num, by unfold categorizeImpact; norm_num, by norm_num⟩
  rw [scenario_calc_eq]
  simp [scenarioResult]

/-- Claim C4: `simulateCascade` returns the not-found signal exactly when
the source id is not a node of the current graph (it is a total function,
so it never throws); in particular `cable:does-not-exist` yields not-found
on the scenario graph, not a success with an empty affected set. -/
theorem cascade_not_found_iff (ds : Datasets) (sourceId : String) (d : ℚ) :
    (calculateCascade ds sourceId d = none ↔
      (buildGraphFresh ds).nodes.get? sourceId = none) ∧
    calculateCascade scenarioDS "cable:does-not-exist" 1 = none := by
  constructor
  · unfold calculateCascade calculateCascadeOnGraph
    cases hg : (buildGraphFresh ds).nodes.get? sourceId with
    | none => simp [hg]
    | some source => simp [hg]
  · decide

/-- Claim C5: `buildGraph` is idempotent and cached — a cache hit returns
the identical cached instance, a second call returns what the first did,
and invalidating then rebuilding yields a graph with the same node and edge
counts as the original build from the same reference data. -/
theorem buildGraph_cached_idempotent (ds : Datasets) :
    (∀ g, buildDependencyGraph ds (some g) = (g, some g)) ∧
    (buildDependencyGraph ds none).1 = buildGraphFresh ds ∧
    (∀ c : Option DependencyGraph,
      buildDependencyGraph ds (buildDependencyGraph ds c).2 =
        ((buildDependencyGraph ds c).1, (buildDependencyGraph ds c).2)) ∧
    (∀ c : Option DependencyGraph,
      (buildDependencyGraph ds (clearGraphCache c)).1.nodes.size =
        (buildDependencyGraph ds none).1.nodes.size ∧
      (buildDependencyGraph ds (clearGraphCache c)).1.edges.length =
        (buildDependencyGraph ds none).1.edges.length) := by
  refine ⟨fun g => rfl, rfl, ?_, fun c => ⟨rfl, rfl⟩⟩
  intro c
  cases c <;> rfl

/-- Claim C8: with strength and disruption level fixed and non-negative,
the computed impact strength is antitone in the redundancy: raising the
redundancy never raises the impact. -/
theorem impact_antitone_in_redundancy (s d r1 r2 : ℚ) (hs : 0 ≤ s) (hd : 0 ≤ d)
    (h1 : 0 ≤ r1) (h2 : r2 ≤ 1) (h12 : r1 < r2) :
    impactStrength s d r2 ≤ impactStrength s d r1 := by
  unfold impactStrength
  have hsd : 0 ≤ s * d := mul_nonneg hs hd
  have hr : (1 - r2) ≤ (1 - r1) := by linarith
  calc s * d * (1 - r2) = (s * d) * (1 - r2) := by ring
  _ ≤ (s * d) * (1 - r1) := mul_le_mul_of_nonneg_left hr hsd
  _ = s * d * (1 - r1) := by ring

/-- Witness for `impact_antitone_in_redundancy` at the scenario's numbers. -/
theorem impact_antitone_in_redundancy_witness :
    impactStrength (6/10) 1 (1/2) ≤ impactStrength (6/10) 1 0 :=
  impact_antitone_in_redundancy (6/10) 1 0 (1/2) (by norm_num) (by norm_num)
    (by norm_num) (by norm_num) (by norm_num)

/-! ## Redundancy analyzer lemmas -/

theorem redundancy_foldl_eq (cableId : String) (sourceCountries : List String) :
    ∀ (l : List UnderseaCable) (acc : List RedundancyCandidate),
      (l.foldl (fun (acc : List RedundancyCandidate) cable =>
        if cable.id = cableId then acc
        else
          let shared : List CountryServed :=
            cable.countriesServed.filter (fun cs => sourceCountries.contains cs.country)
          if shared.length > 0 then
            acc ++ [{ id := cable.id, name := cable.name,
                      capacityShare := (shared.map (·.capacityShare)).sum / (shared.length : ℚ) }]
          else acc) acc)
      = acc ++ findRedundanciesSpec l cableId sourceCountries := by
  intro l
  induction l with
  | nil => intro acc; simp [findRedundanciesSpec]
  | cons c l ih =>
    intro acc
    rw [List.foldl_cons, ih]
    by_cases hid : c.id = cableId
    · have hbne : (c.id != cableId) = false := by simp [hid]
      simp only [if_pos hid, findRedundanciesSpec, List.filter_cons, hbne, if_false,
        Bool.false_eq_true]
    · have hbne : (c.id != cableId) = true := by simp [hid]
      by_cases hsh :
          (c.countriesServed.filter (fun cs => sourceCountries.contains cs.country)).length > 0
      · simp only [if_neg hid, hsh, if_pos, findRedundanciesSpec, List.filter_cons, hbne,
          if_true, List.filterMap_cons, List.append_assoc, List.singleton_append]
      · simp only [if_neg hid, hsh, if_false, findRedundanciesSpec, List.filter_cons, hbne,
          if_true, List.filterMap_cons]

theorem mem_findRedundanciesSpec_ne (cables : List UnderseaCable) (cableId : String)
    (sourceCountries : List String) (cand : RedundancyCandidate)
    (h : cand ∈ findRedundanciesSpec cables cableId sourceCountries) : cand.id ≠ cableId := by
  unfold findRedundanciesSpec at h
  rcases List.mem_filterMap.mp h with ⟨cable, hc, heq⟩
  have hne : cable.id ≠ cableId := by
    have := List.of_mem_filter hc
    simpa using this
  split at heq
  · have : cand.id = cable.id := by
      cases Option.some.inj heq
      rfl
    rw [this]
    exact hne
  · cases heq

theorem findRedundancies_eq_spec (cables : List UnderseaCable) (sourceId : String)
    (sourceCable : UnderseaCable) (hstart : strStartsWith sourceId "cable:" = true)
    (hfind : cables.find? (fun c => c.id = replaceFirstStr sourceId "cable:") = some sourceCable) :
    findRedundancies cables sourceId =
      (findRedundanciesSpec cables (replaceFirstStr sourceId "cable:")
        (sourceCable.countriesServed.map (·.country))).take 5 := by
  unfold findRedundancies
  rw [if_pos hstart]
  show (match cables.find? (fun c => c.id = replaceFirstStr sourceId "cable:") with
    | none => ([] : List RedundancyCandidate)
    | some sourceCable =>
      ((cables.foldl (fun (acc : List RedundancyCandidate) (cable : UnderseaCable) =>
        if cable.id = replaceFirstStr sourceId "cable:" then acc
        else
          let shared : List CountryServed :=
            cable.countriesServed.filter (fun (cs : CountryServed) =>
              (sourceCable.countriesServed.map (fun (x : CountryServed) => x.country)).contains cs.country)
          if shared.length > 0 then
            acc ++
              [(⟨cable.id, cable.name,
                 (shared.map (fun (x : CountryServed) => x.capacityShare)).sum / (shared.length : ℚ)⟩ :
                   RedundancyCandidate)]
          else acc) []).take 5)) = _
  rw [hfind]
  show ((cables.foldl (fun (acc : List RedundancyCandidate) (cable : UnderseaCable) =>
        if cable.id = replaceFirstStr sourceId "cable:" then acc
        else
          let shared : List CountryServed :=
            cable.countriesServed.filter (fun (cs : CountryServed) =>
              (sourceCable.countriesServed.map (fun (x : CountryServed) => x.country)).contains cs.country)
          if shared.length > 0 then
            acc ++
              [(⟨cable.id, cable.name,
                 (shared.map (fun (x : CountryServed) => x.capacityShare)).sum / (shared.length : ℚ)⟩ :
                   RedundancyCandidate)]
          else acc) []).take 5) = _
  rw [redundancy_foldl_eq, List.nil_append]

theorem findRedundancies_eq_nil_of_not_found (cables : List UnderseaCable) (sourceId : String)
    (hfind : cables.find? (fun c => c.id = replaceFirstStr sourceId "cable:") = none) :
    findRedundancies cables sourceId = [] := by
  unfold findRedundancies
  by_cases hstart : strStartsWith sourceId "cable:" = true
  · rw [if_pos hstart]
    show (match cables.find? (fun c => c.id = replaceFirstStr sourceId "cable:") with
      | none => ([] : List RedundancyCandidate)
      | some sourceCable =>
        ((cables.foldl (fun (acc : List RedundancyCandidate) (cable : UnderseaCable) =>
          if cable.id = replaceFirstStr sourceId "cable:" then acc
          else
            let shared : List CountryServed :=
              cable.countriesServed.filter (fun (cs : CountryServed) =>
                (sourceCable.countriesServed.map (fun (x : CountryServed) => x.country)).contains cs.country)
            if shared.length > 0 then
              acc ++
                [(⟨cable.id, cable.name,
                   (shared.map (fun (x : CountryServed) => x.capacityShare)).sum / (shared.length : ℚ)⟩ :
                     RedundancyCandidate)]
            else acc) []).take 5)) = []
    rw [hfind]
  · rw [if_neg hstart]

/-! ## Claim theorem: redundancy analyzer -/

/-- Claim C7: `findRedundancies` returns an empty sequence for every source
id that is not cable-typed or whose cable record cannot be resolved; for a
resolvable cable source it emits, for every other cable overlapping the
source cable's served countries, a candidate carrying the mean capacity
share over the overlapping entries, returns at most the first five in
dataset iteration order, and never includes the source cable itself. -/
theorem findRedundancies_correct (cables : List UnderseaCable) (sourceId : String) :
    (¬ strStartsWith sourceId "cable:" = true → findRedundancies cables sourceId = []) ∧
    (cables.find? (fun c => c.id = replaceFirstStr sourceId "cable:") = none →
      findRedundancies cables sourceId = []) ∧
    (∀ sourceCable, strStartsWith sourceId "cable:" = true →
      cables.find? (fun c => c.id = replaceFirstStr sourceId "cable:") = some sourceCable →
      findRedundancies cables sourceId =
        (findRedundanciesSpec cables (replaceFirstStr sourceId "cable:")
          (sourceCable.countriesServed.map (·.country))).take 5) ∧
    (findRedundancies cables sourceId).length ≤ 5 ∧
    (∀ cand ∈ findRedundancies cables sourceId,
      cand.id ≠ replaceFirstStr sourceId "cable:") := by
  have hnotcable : ¬ strStartsWith sourceId "cable:" = true →
      findRedundancies cables sourceId = [] := by
    intro h
    unfold findRedundancies
    rw [if_neg h]
  have hDE : (findRedundancies cables sourceId).length ≤ 5 ∧
      (∀ cand ∈ findRedundancies cables sourceId,
        cand.id ≠ replaceFirstStr sourceId "cable:") := by
    by_cases hstart : strStartsWith sourceId "cable:" = true
    · cases hfind : cables.find? (fun c => c.id = replaceFirstStr sourceId "cable:") with
      | none =>
        rw [findRedundancies_eq_nil_of_not_found cables sourceId hfind]
        exact ⟨by simp, by simp⟩
      | some sourceCable =>
        rw [findRedundancies_eq_spec cables sourceId sourceCable hstart hfind]
        constructor
        · rw [List.length_take]
          exact min_le_left _ _
        · intro cand hcand
          exact mem_findRedundanciesSpec_ne _ _ _ _ ((List.take_sublist _ _).subset hcand)
    · rw [hnotcable hstart]
      exact ⟨by simp, by simp⟩
  exact ⟨hnotcable, findRedundancies_eq_nil_of_not_found cables sourceId,
    fun sourceCable hs hf => findRedundancies_eq_spec cables sourceId sourceCable hs hf,
    hDE.1, hDE.2⟩

/-- Witness for `findRedundancies_correct`: a port source gets an empty
sequence, and a cable source stays within the five-candidate bound. -/
theorem findRedundancies_correct_witness :
    findRedundancies [cableOne, cableBeta] "port:rotterdam" = [] ∧
    (findRedundancies [cableOne, cableBeta] "cable:c1").length ≤ 5 :=
  ⟨(findRedundancies_correct [cableOne, cableBeta] "port:rotterdam").1 (by decide),
   (findRedundancies_correct [cableOne, cableBeta] "cable:c1").2.2.2.1⟩

/-! ## Graph builder lemmas -/

theorem addEdge_nodes (g : DependencyGraph) (e : DependencyEdge) :
    (addEdge g e).nodes = g.nodes := rfl

theorem addEdge_edges (g : DependencyGraph) (e : DependencyEdge) :
    (addEdge g e).edges = g.edges ++ [e] := rfl

theorem foldl_graph_nodes_eq {β : Type} (step : DependencyGraph → β → DependencyGraph)
    (hstep : ∀ g b, (step g b).nodes = g.nodes) :
    ∀ (l : List β) (g : DependencyGraph), (l.foldl step g).nodes = g.nodes := by
  intro l
  induction l with
  | nil => intro g; rfl
  | cons b l ih => intro g; rw [List.foldl_cons, ih, hstep]

theorem foldl_graph_edges_eq {β : Type} (step : DependencyGraph → β → DependencyGraph)
    (hstep : ∀ g b, (step g b).edges = g.edges) :
    ∀ (l : List β) (g : DependencyGraph), (l.foldl step g).edges = g.edges := by
  intro l
  induction l with
  | nil => intro g; rfl
  | cons b l ih => intro g; rw [List.foldl_cons, ih, hstep]

theorem foldl_graph_outgoing_eq {β : Type} (step : DependencyGraph → β → DependencyGraph)
    (hstep : ∀ g b, (step g b).outgoing = g.outgoing) :
    ∀ (l : List β) (g : DependencyGraph), (l.foldl step g).outgoing = g.outgoing := by
  intro l
  induction l with
  | nil => intro g; rfl
  | cons b l ih => intro g; rw [List.foldl_cons, ih, hstep]

theorem foldl_addEdge_mem {β : Type} (mk : β → DependencyEdge) :
    ∀ (l : List β) (g : DependencyGraph) (e : DependencyEdge),
      e ∈ (l.foldl (fun g b => addEdge g (mk b)) g).edges →
      e ∈ g.edges ∨ ∃ b ∈ l, e = mk b := by
  intro l
  induction l with
  | nil => intro g e h; exact Or.inl h
  | cons b l ih =>
    intro g e h
    rw [List.foldl_cons] at h
    rcases ih _ _ h with h' | ⟨b', hb', he⟩
    · rw [addEdge_edges] at h'
      rcases List.mem_append.mp h' with h'' | h''
      · exact Or.inl h''
      · exact Or.inr ⟨b, List.mem_cons_self _ _, by simpa using h''⟩
    · exact Or.inr ⟨b', List.mem_cons_of_mem _ hb', he⟩

theorem foldl_addEdge_length {β : Type} (mk : β → DependencyEdge) :
    ∀ (l : List β) (g : DependencyGraph),
      (l.foldl (fun g b => addEdge g (mk b)) g).edges.length = g.edges.length + l.length := by
  intro l
  induction l with
  | nil => intro g; rfl
  | cons b l ih =>
    intro g
    rw [List.foldl_cons, ih, addEdge_edges]
    simp
    omega

theorem mem_foldl_step_mono {β : Type} (step : List String → β → List String)
    (hmono : ∀ a y x, x ∈ a → x ∈ step a y) :
    ∀ (l : List β) (acc : List String) (x : String), x ∈ acc → x ∈ l.foldl step acc := by
  intro l
  induction l with
  | nil => intro acc x h; exact h
  | cons b l ih =>
    intro acc x h
    rw [List.foldl_cons]
    exact ih _ _ (hmono _ _ _ h)

theorem mem_foldl_step_intro {β : Type} (step : List String → β → List String)
    (hmono : ∀ a y x, x ∈ a → x ∈ step a y) (x : String) (c : β)
    (hintro : ∀ acc, x ∈ step acc c) :
    ∀ (l : List β) (acc : List String), c ∈ l → x ∈ l.foldl step acc := by
  intro l
  induction l with
  | nil => intro acc h; cases h
  | cons b l ih =>
    intro acc h
    rw [List.foldl_cons]
    rcases List.mem_cons.mp h with h' | h'
    · subst h'
      exact mem_foldl_step_mono step hmono _ _ _ (hintro acc)
    · exact ih _ h'

theorem mem_collectCountries_of_pipeline (ds : Datasets) (p : Pipeline) (c : String)
    (hp : p ∈ ds.pipelines) (hc : c ∈ p.countries) :
    normCode c ∈ collectCountries ds := by
  unfold collectCountries
  refine mem_foldl_step_intro _ ?_ _ p ?_ _ _ hp
  · intro a y x hx
    exact mem_foldl_step_mono _ (fun a' y' x' hx' => mem_insertUnique_of_mem _ _ _ hx') _ _ _ hx
  · intro acc
    exact mem_foldl_step_intro (fun a c => insertUnique a (normCode c))
      (fun a' y' x' hx' => mem_insertUnique_of_mem _ _ _ hx')
      (normCode c) c (fun acc' => mem_insertUnique_self _ _) _ _ hc

theorem mem_collectCountries_of_served (ds : Datasets) (cable : UnderseaCable)
    (cs : CountryServed) (hcable : cable ∈ ds.cables) (hcs : cs ∈ cable.countriesServed) :
    cs.country ∈ collectCountries ds := by
  unfold collectCountries
  refine mem_foldl_step_mono _ ?_ _ _ _ ?_
  · intro a y x hx
    exact mem_foldl_step_mono _ (fun a' y' x' hx' => mem_insertUnique_of_mem _ _ _ hx') _ _ _ hx
  · refine mem_foldl_step_intro _ ?_ _ cable ?_ _ _ hcable
    · intro a y x hx
      exact mem_foldl_step_mono _ (fun a' y' x' hx' => mem_insertUnique_of_mem _ _ _ hx') _ _ _
        (mem_foldl_step_mono _ (fun a' y' x' hx' => mem_insertUnique_of_mem _ _ _ hx') _ _ _ hx)
    · intro acc
      exact mem_foldl_step_mono _ (fun a' y' x' hx' => mem_insertUnique_of_mem _ _ _ hx') _ _ _
        (mem_foldl_step_intro (fun a cs => insertUnique a cs.country)
          (fun a' y' x' hx' => mem_insertUnique_of_mem _ _ _ hx')
          cs.country cs (fun acc' => mem_insertUnique_self _ _) _ _ hcs)

theorem mem_collectCountries_of_landing (ds : Datasets) (cable : UnderseaCable)
    (lp : LandingPoint) (hcable : cable ∈ ds.cables) (hlp : lp ∈ cable.landingPoints) :
    lp.country ∈ collectCountries ds := by
  unfold collectCountries
  refine mem_foldl_step_mono _ ?_ _ _ _ ?_
  · intro a y x hx
    exact mem_foldl_step_mono _ (fun a' y' x' hx' => mem_insertUnique_of_mem _ _ _ hx') _ _ _ hx
  · refine mem_foldl_step_intro _ ?_ _ cable ?_ _ _ hcable
    · intro a y x hx
      exact mem_foldl_step_mono _ (fun a' y' x' hx' => mem_insertUnique_of_mem _ _ _ hx') _ _ _
        (mem_foldl_step_mono _ (fun a' y' x' hx' => mem_insertUnique_of_mem _ _ _ hx') _ _ _ hx)
    · intro acc
      exact mem_foldl_step_intro (fun a lp => insertUnique a lp.country)
        (fun a' y' x' hx' => mem_insertUnique_of_mem _ _ _ hx')
        lp.country lp (fun acc' => mem_insertUnique_self _ _) _ _ hlp

theorem foldl_set_node_has_mono {β : Type} (key : β → String) (val : β → InfrastructureNode) :
    ∀ (l : List β) (g : DependencyGraph) (k : String), g.nodes.has k = true →
      (l.foldl (fun g b => { g with nodes := g.nodes.set (key b) (val b) }) g).nodes.has k
        = true := by
  intro l
  induction l with
  | nil => intro g k h; exact h
  | cons b l ih =>
    intro g k h
    rw [List.foldl_cons]
    exact ih _ _ (jsMap_has_set_of_has _ _ _ _ h)

theorem foldl_set_node_has {β : Type} (key : β → String) (val : β → InfrastructureNode) :
    ∀ (l : List β) (g : DependencyGraph) (b : β), b ∈ l →
      (l.foldl (fun g b => { g with nodes := g.nodes.set (key b) (val b) }) g).nodes.has (key b)
        = true := by
  intro l
  induction l with
  | nil => intro g b h; cases h
  | cons c l ih =>
    intro g b h
    rw [List.foldl_cons]
    rcases List.mem_cons.mp h with h' | h'
    · subst h'
      exact foldl_set_node_has_mono key val _ _ _ (jsMap_has_set_self _ _ _)
    · exact ih _ _ h'

theorem addCountriesAsNodes_has (ds : Datasets) (g : DependencyGraph) (code : String)
    (h : code ∈ collectCountries ds) :
    (addCountriesAsNodes ds g).nodes.has ("country:" ++ code) = true := by
  unfold addCountriesAsNodes
  exact foldl_set_node_has (fun code => "country:" ++ code)
    (fun code => { id := "country:" ++ code, type := NodeType.country,
                   name := countryNameFor ds.countryNames code, code := some code })
    (collectCountries ds) g code h

theorem addCablesAsNodes_edges (ds : Datasets) (g : DependencyGraph) :
    (addCablesAsNodes ds g).edges = g.edges := by
  unfold addCablesAsNodes
  refine foldl_graph_edges_eq _ ?_ _ _
  intro g' b
  rfl

theorem addPipelinesAsNodes_edges (ds : Datasets) (g : DependencyGraph) :
    (addPipelinesAsNodes ds g).edges = g.edges := by
  unfold addPipelinesAsNodes
  refine foldl_graph_edges_eq _ ?_ _ _
  intro g' b
  rfl

theorem addPortsAsNodes_edges (ds : Datasets) (g : DependencyGraph) :
    (addPortsAsNodes ds g).edges = g.edges := by
  unfold addPortsAsNodes
  refine foldl_graph_edges_eq _ ?_ _ _
  intro g' b
  rfl

theorem addChokepointsAsNodes_edges (ds : Datasets) (g : DependencyGraph) :
    (addChokepointsAsNodes ds g).edges = g.edges := by
  unfold addChokepointsAsNodes
  refine foldl_graph_edges_eq _ ?_ _ _
  intro g' b
  rfl

theorem addCountriesAsNodes_edges (ds : Datasets) (g : DependencyGraph) :
    (addCountriesAsNodes ds g).edges = g.edges := by
  unfold addCountriesAsNodes
  refine foldl_graph_edges_eq _ ?_ _ _
  intro g' b
  rfl

theorem buildCableCountryEdges_nodes (ds : Datasets) (g : DependencyGraph) :
    (buildCableCountryEdges ds g).nodes = g.nodes := by
  unfold buildCableCountryEdges
  refine foldl_graph_nodes_eq _ ?_ _ _
  intro g' cable
  have h1 := foldl_graph_nodes_eq (fun g cs => addEdge g (cableServesEdge cable cs))
    (fun g b => addEdge_nodes _ _) cable.countriesServed g'
  have h2 := foldl_graph_nodes_eq (fun g lp => addEdge g (cableLandsAtEdge cable lp))
    (fun g b => addEdge_nodes _ _) cable.landingPoints
    (cable.countriesServed.foldl (fun g cs => addEdge g (cableServesEdge cable cs)) g')
  exact h2.trans h1

theorem pipeline_inner_nodes (p : Pipeline) (cs : List String) (g : DependencyGraph) :
    (cs.foldl (fun g c =>
      let code := normCode c
      if g.nodes.has ("country:" ++ code) then addEdge g (pipelineServesEdge p code)
      else g) g).nodes = g.nodes := by
  refine foldl_graph_nodes_eq _ ?_ _ _
  intro g' c
  show (if g'.nodes.has ("country:" ++ normCode c) = true
      then addEdge g' (pipelineServesEdge p (normCode c)) else g').nodes = g'.nodes
  split
  · exact addEdge_nodes _ _
  · rfl

theorem buildPipelineCountryEdges_nodes (ds : Datasets) (g : DependencyGraph) :
    (buildPipelineCountryEdges ds g).nodes = g.nodes := by
  unfold buildPipelineCountryEdges
  refine foldl_graph_nodes_eq _ ?_ _ _
  intro g' p
  exact pipeline_inner_nodes p p.countries g'

theorem pipeline_inner_length (p : Pipeline) :
    ∀ (cs : List String) (g : DependencyGraph),
      (∀ c ∈ cs, g.nodes.has ("country:" ++ normCode c) = true) →
      (cs.foldl (fun g c =>
        let code := normCode c
        if g.nodes.has ("country:" ++ code) then addEdge g (pipelineServesEdge p code)
        else g) g).edges.length = g.edges.length + cs.length := by
  intro cs
  induction cs with
  | nil => intro g h; simp
  | cons c cs ih =>
    intro g h
    rw [List.foldl_cons]
    have hc := h c (List.mem_cons_self _ _)
    have hstep : (let code := normCode c
        if g.nodes.has ("country:" ++ code) then addEdge g (pipelineServesEdge p code)
        else g) = addEdge g (pipelineServesEdge p (normCode c)) := by
      show (if g.nodes.has ("country:" ++ normCode c) = true
        then addEdge g (pipelineServesEdge p (normCode c)) else g) = _
      rw [if_pos hc]
    rw [hstep]
    have htail : ∀ c' ∈ cs,
        (addEdge g (pipelineServesEdge p (normCode c))).nodes.has
          ("country:" ++ normCode c') = true := by
      intro c' hc'
      rw [addEdge_nodes]
      exact h c' (List.mem_cons_of_mem _ hc')
    rw [ih _ htail, addEdge_edges]
    simp only [List.length_append, List.length_cons, List.length_nil]
    omega

theorem buildPipelineCountryEdges_length_aux :
    ∀ (ps : List Pipeline) (g : DependencyGraph),
      (∀ p ∈ ps, ∀ c ∈ p.countries, g.nodes.has ("country:" ++ normCode c) = true) →
      (ps.foldl (fun g p => p.countries.foldl (fun g c =>
          let code := normCode c
          if g.nodes.has ("country:" ++ code) then addEdge g (pipelineServesEdge p code)
          else g) g) g).edges.length
        = g.edges.length + (ps.map (fun p => p.countries.length)).sum := by
  intro ps
  induction ps with
  | nil => intro g h; simp
  | cons p ps ih =>
    intro g h
    rw [List.foldl_cons]
    have htail : ∀ p' ∈ ps, ∀ c ∈ p'.countries,
        (p.countries.foldl (fun g c =>
          let code := normCode c
          if g.nodes.has ("country:" ++ code) then addEdge g (pipelineServesEdge p code)
          else g) g).nodes.has ("country:" ++ normCode c) = true := by
      intro p' hp' c hc
      rw [pipeline_inner_nodes]
      exact h p' (List.mem_cons_of_mem _ hp') c hc
    rw [ih _ htail, pipeline_inner_length p p.countries g (h p (List.mem_cons_self _ _))]
    simp only [List.map_cons, List.sum_cons]
    omega

theorem buildCableCountryEdges_length_aux :
    ∀ (l : List UnderseaCable) (g : DependencyGraph),
      List.length
        ((l.foldl (fun g cable =>
          let g := cable.countriesServed.foldl
            (fun g cs => addEdge g (cableServesEdge cable cs)) g
          cable.landingPoints.foldl (fun g lp => addEdge g (cableLandsAtEdge cable lp)) g)
          g).edges)
        = g.edges.length
          + (l.map (fun c => c.countriesServed.length + c.landingPoints.length)).sum := by
  intro l
  induction l with
  | nil => intro g; simp
  | cons cable l ih =>
    intro g
    rw [List.foldl_cons, ih]
    show List.length ((cable.landingPoints.foldl
          (fun g lp => addEdge g (cableLandsAtEdge cable lp))
          (cable.countriesServed.foldl
            (fun g cs => addEdge g (cableServesEdge cable cs)) g)).edges)
        + (l.map (fun c => c.countriesServed.length + c.landingPoints.length)).sum
      = g.edges.length
        + ((cable :: l).map (fun c => c.countriesServed.length + c.landingPoints.length)).sum
    rw [foldl_addEdge_length, foldl_addEdge_length]
    simp only [List.map_cons, List.sum_cons]
    omega

theorem buildPipelineCountryEdges_length (ds : Datasets) (g : DependencyGraph)
    (hhas : ∀ p ∈ ds.pipelines, ∀ c ∈ p.countries,
      g.nodes.has ("country:" ++ normCode c) = true) :
    (buildPipelineCountryEdges ds g).edges.length =
      g.edges.length + (ds.pipelines.map (fun p => p.countries.length)).sum := by
  unfold buildPipelineCountryEdges
  exact buildPipelineCountryEdges_length_aux ds.pipelines g hhas

theorem buildCableCountryEdges_length (ds : Datasets) (g : DependencyGraph) :
    (buildCableCountryEdges ds g).edges.length =
      g.edges.length
        + (ds.cables.map (fun c => c.countriesServed.length + c.landingPoints.length)).sum := by
  unfold buildCableCountryEdges
  exact buildCableCountryEdges_length_aux ds.cables g

theorem nodePhase_edges_nil (ds : Datasets) :
    (addCountriesAsNodes ds (addChokepointsAsNodes ds (addPortsAsNodes ds
      (addPipelinesAsNodes ds (addCablesAsNodes ds initialGraph))))).edges = [] := by
  rw [addCountriesAsNodes_edges, addChokepointsAsNodes_edges, addPortsAsNodes_edges,
    addPipelinesAsNodes_edges, addCablesAsNodes_edges]
  rfl

theorem nodePhase_has_country (ds : Datasets) (code : String) (h : code ∈ collectCountries ds) :
    (addCountriesAsNodes ds (addChokepointsAsNodes ds (addPortsAsNodes ds
      (addPipelinesAsNodes ds (addCablesAsNodes ds initialGraph))))).nodes.has
        ("country:" ++ code) = true :=
  addCountriesAsNodes_has ds _ code h

theorem pipelines_fold_guard_mem (p : Pipeline) :
    ∀ (cs : List String) (g : DependencyGraph) (e : DependencyEdge),
      e ∈ (cs.foldl (fun g c =>
        let code := normCode c
        if g.nodes.has ("country:" ++ code) then addEdge g (pipelineServesEdge p code)
        else g) g).edges →
      e ∈ g.edges ∨ ∃ c ∈ cs, e = pipelineServesEdge p (normCode c) := by
  intro cs
  induction cs with
  | nil => intro g e h; exact Or.inl h
  | cons c cs ih =>
    intro g e h
    rw [List.foldl_cons] at h
    by_cases hc : g.nodes.has ("country:" ++ normCode c) = true
    · have hstep : (let code := normCode c
          if g.nodes.has ("country:" ++ code) then addEdge g (pipelineServesEdge p code)
          else g) = addEdge g (pipelineServesEdge p (normCode c)) := by
        show (if g.nodes.has ("country:" ++ normCode c) = true
          then addEdge g (pipelineServesEdge p (normCode c)) else g) = _
        rw [if_pos hc]
      rw [hstep] at h
      rcases ih _ _ h with h' | ⟨c', hc', he⟩
      · rw [addEdge_edges] at h'
        rcases List.mem_append.mp h' with h'' | h''
        · exact Or.inl h''
        · exact Or.inr ⟨c, List.mem_cons_self _ _, by simpa using h''⟩
      · exact Or.inr ⟨c', List.mem_cons_of_mem _ hc', he⟩
    · have hstep : (let code := normCode c
          if g.nodes.has ("country:" ++ code) then addEdge g (pipelineServesEdge p code)
          else g) = g := by
        show (if g.nodes.has ("country:" ++ normCode c) = true
          then addEdge g (pipelineServesEdge p (normCode c)) else g) = _
        rw [if_neg hc]
      rw [hstep] at h
      rcases ih _ _ h with h' | ⟨c', hc', he⟩
      · exact Or.inl h'
      · exact Or.inr ⟨c', List.mem_cons_of_mem _ hc', he⟩

theorem pipelines_fold_mem :
    ∀ (ps : List Pipeline) (g : DependencyGraph) (e : DependencyEdge),
      e ∈ (ps.foldl (fun g p => p.countries.foldl (fun g c =>
          let code := normCode c
          if g.nodes.has ("country:" ++ code) then addEdge g (pipelineServesEdge p code)
          else g) g) g).edges →
      e ∈ g.edges ∨ ∃ p ∈ ps, ∃ c ∈ p.countries, e = pipelineServesEdge p (normCode c) := by
  intro ps
  induction ps with
  | nil => intro g e h; exact Or.inl h
  | cons p ps ih =>
    intro g e h
    rw [List.foldl_cons] at h
    rcases ih _ _ h with h' | ⟨p', hp', c', hc', he⟩
    · rcases pipelines_fold_guard_mem p _ _ _ h' with h'' | ⟨c', hc', he⟩
      · exact Or.inl h''
      · exact Or.inr ⟨p, List.mem_cons_self _ _, c', hc', he⟩
    · exact Or.inr ⟨p', List.mem_cons_of_mem _ hp', c', hc', he⟩

theorem cables_fold_mem :
    ∀ (l : List UnderseaCable) (g : DependencyGraph) (e : DependencyEdge),
      e ∈ (l.foldl (fun g cable =>
        let g := cable.countriesServed.foldl
          (fun g cs => addEdge g (cableServesEdge cable cs)) g
        cable.landingPoints.foldl (fun g lp => addEdge g (cableLandsAtEdge cable lp)) g)
        g).edges →
      e ∈ g.edges ∨
      (∃ cable ∈ l, ∃ cs ∈ cable.countriesServed, e = cableServesEdge cable cs) ∨
      (∃ cable ∈ l, ∃ lp ∈ cable.landingPoints, e = cableLandsAtEdge cable lp) := by
  intro l
  induction l with
  | nil => intro g e h; exact Or.inl h
  | cons cable l ih =>
    intro g e h
    rw [List.foldl_cons] at h
    rcases ih _ _ h with h' | h' | h'
    · have h'' : e ∈ (cable.landingPoints.foldl
          (fun g lp => addEdge g (cableLandsAtEdge cable lp))
          (cable.countriesServed.foldl
            (fun g cs => addEdge g (cableServesEdge cable cs)) g)).edges := h'
      rcases foldl_addEdge_mem _ _ _ _ h'' with h3 | ⟨lp, hlp, he⟩
      · rcases foldl_addEdge_mem _ _ _ _ h3 with h4 | ⟨cs, hcs, he⟩
        · exact Or.inl h4
        · exact Or.inr (Or.inl ⟨cable, List.mem_cons_self _ _, cs, hcs, he⟩)
      · exact Or.inr (Or.inr ⟨cable, List.mem_cons_self _ _, lp, hlp, he⟩)
    · rcases h' with ⟨cable', hc', cs, hcs, he⟩
      exact Or.inr (Or.inl ⟨cable', List.mem_cons_of_mem _ hc', cs, hcs, he⟩)
    · rcases h' with ⟨cable', hc', lp, hlp, he⟩
      exact Or.inr (Or.inr ⟨cable', List.mem_cons_of_mem _ hc', lp, hlp, he⟩)

theorem built_edges_mem (ds : Datasets) :
    ∀ e ∈ (buildGraphFresh ds).edges,
      (∃ cable ∈ ds.cables, ∃ cs ∈ cable.countriesServed, e = cableServesEdge cable cs) ∨
      (∃ cable ∈ ds.cables, ∃ lp ∈ cable.landingPoints, e = cableLandsAtEdge cable lp) ∨
      (∃ p ∈ ds.pipelines, ∃ c ∈ p.countries, e = pipelineServesEdge p (normCode c)) := by
  intro e he
  unfold buildGraphFresh buildPipelineCountryEdges at he
  rcases pipelines_fold_mem _ _ _ he with h' | hpipe
  · unfold buildCableCountryEdges at h'
    rcases cables_fold_mem _ _ _ h' with h'' | hserves | hlands
    · rw [nodePhase_edges_nil] at h''
      cases h''
    · exact Or.inl hserves
    · exact Or.inr (Or.inl hlands)
  · exact Or.inr (Or.inr hpipe)

/-! ## Claim theorem: pipeline silent-skip branch -/

/-- Claim C9: the pipeline silent-skip branch is unreachable on the graphs
`buildGraph` produces — country-node creation registers a node for every
pipeline country entry under the same aliasing normalisation that edge
construction applies, so the existence guard always succeeds: the built
graph has one edge per cable served-country entry, per cable landing point
and per pipeline country entry, and every pipeline-sourced edge is a
`serves` edge with strength 0.2 and redundancy 0.3. -/
theorem pipeline_silent_skip_unreachable (ds : Datasets) :
    (buildGraphFresh ds).edges.length =
      (ds.cables.map (fun c => c.countriesServed.length + c.landingPoints.length)).sum +
      (ds.pipelines.map (fun p => p.countries.length)).sum ∧
    (∀ e ∈ (buildGraphFresh ds).edges, strStartsWith e.src "pipeline:" = true →
      e.type = EdgeType.serves ∧ e.strength = 0.2 ∧ e.redundancy = 0.3) := by
  constructor
  · unfold buildGraphFresh
    rw [buildPipelineCountryEdges_length, buildCableCountryEdges_length, nodePhase_edges_nil]
    · simp
    · intro p hp c hc
      rw [buildCableCountryEdges_nodes]
      exact nodePhase_has_country ds _ (mem_collectCountries_of_pipeline ds p c hp hc)
  · intro e he hsrc
    rcases built_edges_mem ds e he with ⟨cable, _, cs, _, he'⟩ | ⟨cable, _, lp, _, he'⟩ |
      ⟨p, _, c, _, he'⟩
    · exfalso
      have hcab : strStartsWith e.src "cable:" = true := by
        rw [he']
        exact strStartsWith_append "cable:" cable.id
      exact startsWith_disjoint hcab hsrc (by decide) (by decide)
    · exfalso
      have hcab : strStartsWith e.src "cable:" = true := by
        rw [he']
        exact strStartsWith_append "cable:" cable.id
      exact startsWith_disjoint hcab hsrc (by decide) (by decide)
    · subst he'
      exact ⟨rfl, rfl, rfl⟩

/-- Witness for `pipeline_silent_skip_unreachable` on `fullDS`: two cables
with two served countries each and one pipeline with two country entries
give exactly six edges. -/
theorem pipeline_silent_skip_unreachable_witness :
    (buildGraphFresh fullDS).edges.length =
      (fullDS.cables.map (fun c => c.countriesServed.length + c.landingPoints.length)).sum +
      (fullDS.pipelines.map (fun p => p.countries.length)).sum ∧
    (fullDS.cables.map (fun c => c.countriesServed.length + c.landingPoints.length)).sum +
      (fullDS.pipelines.map (fun p => p.countries.length)).sum = 6 :=
  ⟨(pipeline_silent_skip_unreachable fullDS).1, by decide⟩

/-! ## Node-map shape lemmas -/

theorem jsMap_get?_isSome_of_has {β : Type} (m : JsMap β) (k : String)
    (h : m.has k = true) : ∃ v, m.get? k = some v := by
  unfold JsMap.has at h
  unfold JsMap.get?
  rcases Option.isSome_iff_exists.mp h with ⟨p, hp⟩
  exact ⟨p.2, by rw [hp]; rfl⟩

theorem addCablesAsNodes_has (ds : Datasets) (g : DependencyGraph) (cable : UnderseaCable)
    (h : cable ∈ ds.cables) :
    (addCablesAsNodes ds g).nodes.has ("cable:" ++ cable.id) = true := by
  unfold addCablesAsNodes
  exact foldl_set_node_has (fun c => "cable:" ++ c.id)
    (fun c => { id := "cable:" ++ c.id, type := NodeType.cable, name := c.name })
    ds.cables g cable h

theorem addPipelinesAsNodes_has (ds : Datasets) (g : DependencyGraph) (p : Pipeline)
    (h : p ∈ ds.pipelines) :
    (addPipelinesAsNodes ds g).nodes.has ("pipeline:" ++ p.id) = true := by
  unfold addPipelinesAsNodes
  exact foldl_set_node_has (fun p => "pipeline:" ++ p.id)
    (fun p => { id := "pipeline:" ++ p.id, type := NodeType.pipeline, name := p.name })
    ds.pipelines g p h

theorem addPipelinesAsNodes_has_mono (ds : Datasets) (g : DependencyGraph) (k : String)
    (h : g.nodes.has k = true) : (addPipelinesAsNodes ds g).nodes.has k = true := by
  unfold addPipelinesAsNodes
  exact foldl_set_node_has_mono (fun p => "pipeline:" ++ p.id)
    (fun p => { id := "pipeline:" ++ p.id, type := NodeType.pipeline, name := p.name })
    ds.pipelines g k h

theorem addPortsAsNodes_has_mono (ds : Datasets) (g : DependencyGraph) (k : String)
    (h : g.nodes.has k = true) : (addPortsAsNodes ds g).nodes.has k = true := by
  unfold addPortsAsNodes
  exact foldl_set_node_has_mono (fun p => "port:" ++ p.id)
    (fun p => { id := "port:" ++ p.id, type := NodeType.port, name := p.name })
    ds.ports g k h

theorem addChokepointsAsNodes_has_mono (ds : Datasets) (g : DependencyGraph) (k : String)
    (h : g.nodes.has k = true) : (addChokepointsAsNodes ds g).nodes.has k = true := by
  unfold addChokepointsAsNodes
  exact foldl_set_node_has_mono (fun w => "chokepoint:" ++ w.id)
    (fun w => { id := "chokepoint:" ++ w.id, type := NodeType.chokepoint, name := w.name })
    ds.waterways g k h

theorem addCountriesAsNodes_has_mono (ds : Datasets) (g : DependencyGraph) (k : String)
    (h : g.nodes.has k = true) : (addCountriesAsNodes ds g).nodes.has k = true := by
  unfold addCountriesAsNodes
  exact foldl_set_node_has_mono (fun code => "country:" ++ code)
    (fun code => { id := "country:" ++ code, type := NodeType.country,
                   name := countryNameFor ds.countryNames code, code := some code })
    (collectCountries ds) g k h

theorem buildGraphFresh_nodes (ds : Datasets) :
    (buildGraphFresh ds).nodes =
      (addCountriesAsNodes ds (addChokepointsAsNodes ds (addPortsAsNodes ds
        (addPipelinesAsNodes ds (addCablesAsNodes ds initialGraph))))).nodes := by
  unfold buildGraphFresh
  rw [buildPipelineCountryEdges_nodes, buildCableCountryEdges_nodes]

theorem buildGraphFresh_has_country (ds : Datasets) (code : String)
    (h : code ∈ collectCountries ds) :
    (buildGraphFresh ds).nodes.has ("country:" ++ code) = true := by
  rw [show (buildGraphFresh ds).nodes.has ("country:" ++ code)
      = (addCountriesAsNodes ds (addChokepointsAsNodes ds (addPortsAsNodes ds
        (addPipelinesAsNodes ds (addCablesAsNodes ds initialGraph))))).nodes.has
          ("country:" ++ code) from by rw [buildGraphFresh_nodes]]
  exact nodePhase_has_country ds code h

theorem buildGraphFresh_has_cable (ds : Datasets) (cable : UnderseaCable)
    (h : cable ∈ ds.cables) :
    (buildGraphFresh ds).nodes.has ("cable:" ++ cable.id) = true := by
  rw [show (buildGraphFresh ds).nodes.has ("cable:" ++ cable.id)
      = (addCountriesAsNodes ds (addChokepointsAsNodes ds (addPortsAsNodes ds
        (addPipelinesAsNodes ds (addCablesAsNodes ds initialGraph))))).nodes.has
          ("cable:" ++ cable.id) from by rw [buildGraphFresh_nodes]]
  exact addCountriesAsNodes_has_mono ds _ _ (addChokepointsAsNodes_has_mono ds _ _
    (addPortsAsNodes_has_mono ds _ _ (addPipelinesAsNodes_has_mono ds _ _
      (addCablesAsNodes_has ds _ cable h))))

theorem buildGraphFresh_has_pipeline (ds : Datasets) (p : Pipeline)
    (h : p ∈ ds.pipelines) :
    (buildGraphFresh ds).nodes.has ("pipeline:" ++ p.id) = true := by
  rw [show (buildGraphFresh ds).nodes.has ("pipeline:" ++ p.id)
      = (addCountriesAsNodes ds (addChokepointsAsNodes ds (addPortsAsNodes ds
        (addPipelinesAsNodes ds (addCablesAsNodes ds initialGraph))))).nodes.has
          ("pipeline:" ++ p.id) from by rw [buildGraphFresh_nodes]]
  exact addCountriesAsNodes_has_mono ds _ _ (addChokepointsAsNodes_has_mono ds _ _
    (addPortsAsNodes_has_mono ds _ _ (addPipelinesAsNodes_has ds _ p h)))

theorem foldl_set_node_pres {β : Type} (key : β → String) (val : β → InfrastructureNode)
    (P : String → InfrastructureNode → Prop) (hval : ∀ b, P (key b) (val b)) :
    ∀ (l : List β) (g : DependencyGraph),
      (∀ kv ∈ g.nodes.entries, P kv.1 kv.2) →
      ∀ kv ∈ (l.foldl
          (fun g b => { g with nodes := g.nodes.set (key b) (val b) }) g).nodes.entries,
        P kv.1 kv.2 := by
  intro l
  induction l with
  | nil => intro g h; exact h
  | cons b l ih =>
    intro g h
    rw [List.foldl_cons]
    refine ih _ ?_
    intro kv hkv
    rcases jsMap_mem_entries_set _ _ _ _ hkv with h' | h'
    · rw [h']
      exact hval b
    · exact h kv h'

set_option maxHeartbeats 2000000 in
theorem buildGraphFresh_nodesOK (ds : Datasets) : NodesOK (buildGraphFresh ds) := by
  unfold NodesOK
  rw [buildGraphFresh_nodes]
  unfold addCountriesAsNodes addChokepointsAsNodes addPortsAsNodes addPipelinesAsNodes
    addCablesAsNodes
  exact foldl_set_node_pres (fun code => "country:" ++ code)
    (fun code => { id := "country:" ++ code, type := NodeType.country,
                   name := countryNameFor ds.countryNames code, code := some code })
    (fun k v => (strStartsWith k "cable:" = true ∧ v.type = NodeType.cable) ∨
      (strStartsWith k "pipeline:" = true ∧ v.type = NodeType.pipeline) ∨
      (strStartsWith k "port:" = true ∧ v.type = NodeType.port) ∨
      (strStartsWith k "chokepoint:" = true ∧ v.type = NodeType.chokepoint) ∨
      (strStartsWith k "country:" = true ∧ v.type = NodeType.country))
    (fun code => Or.inr (Or.inr (Or.inr (Or.inr
      ⟨strStartsWith_append "country:" code, rfl⟩))))
    (collectCountries ds) _
    (foldl_set_node_pres (fun w => "chokepoint:" ++ w.id)
      (fun w => { id := "chokepoint:" ++ w.id, type := NodeType.chokepoint, name := w.name })
      (fun k v => (strStartsWith k "cable:" = true ∧ v.type = NodeType.cable) ∨
      (strStartsWith k "pipeline:" = true ∧ v.type = NodeType.pipeline) ∨
      (strStartsWith k "port:" = true ∧ v.type = NodeType.port) ∨
      (strStartsWith k "chokepoint:" = true ∧ v.type = NodeType.chokepoint) ∨
      (strStartsWith k "country:" = true ∧ v.type = NodeType.country))
      (fun w => Or.inr (Or.inr (Or.inr (Or.inl
        ⟨strStartsWith_append "chokepoint:" w.id, rfl⟩))))
      ds.waterways _
      (foldl_set_node_pres (fun p => "port:" ++ p.id)
        (fun p => { id := "port:" ++ p.id, type := NodeType.port, name := p.name })
        (fun k v => (strStartsWith k "cable:" = true ∧ v.type = NodeType.cable) ∨
      (strStartsWith k "pipeline:" = true ∧ v.type = NodeType.pipeline) ∨
      (strStartsWith k "port:" = true ∧ v.type = NodeType.port) ∨
      (strStartsWith k "chokepoint:" = true ∧ v.type = NodeType.chokepoint) ∨
      (strStartsWith k "country:" = true ∧ v.type = NodeType.country))
        (fun p => Or.inr (Or.inr (Or.inl ⟨strStartsWith_append "port:" p.id, rfl⟩)))
        ds.ports _
        (foldl_set_node_pres (fun p => "pipeline:" ++ p.id)
          (fun p => { id := "pipeline:" ++ p.id, type := NodeType.pipeline, name := p.name })
          (fun k v => (strStartsWith k "cable:" = true ∧ v.type = NodeType.cable) ∨
      (strStartsWith k "pipeline:" = true ∧ v.type = NodeType.pipeline) ∨
      (strStartsWith k "port:" = true ∧ v.type = NodeType.port) ∨
      (strStartsWith k "chokepoint:" = true ∧ v.type = NodeType.chokepoint) ∨
      (strStartsWith k "country:" = true ∧ v.type = NodeType.country))
          (fun p => Or.inr (Or.inl ⟨strStartsWith_append "pipeline:" p.id, rfl⟩))
          ds.pipelines _
          (foldl_set_node_pres (fun c => "cable:" ++ c.id)
            (fun c => { id := "cable:" ++ c.id, type := NodeType.cable, name := c.name })
            (fun k v => (strStartsWith k "cable:" = true ∧ v.type = NodeType.cable) ∨
      (strStartsWith k "pipeline:" = true ∧ v.type = NodeType.pipeline) ∨
      (strStartsWith k "port:" = true ∧ v.type = NodeType.port) ∨
      (strStartsWith k "chokepoint:" = true ∧ v.type = NodeType.chokepoint) ∨
      (strStartsWith k "country:" = true ∧ v.type = NodeType.country))
            (fun c => Or.inl ⟨strStartsWith_append "cable:" c.id, rfl⟩)
            ds.cables initialGraph (fun kv hkv => by cases hkv)))))

theorem get?_type_of_prefix_country (g : DependencyGraph) (hOK : NodesOK g) (k : String)
    (v : InfrastructureNode) (hget : g.nodes.get? k = some v)
    (hpre : strStartsWith k "country:" = true) : v.type = NodeType.country := by
  rcases jsMap_get?_eq_some _ _ _ hget with ⟨p, hp, hk, hv⟩
  rcases hOK p hp with ⟨h1, _⟩ | ⟨h1, _⟩ | ⟨h1, _⟩ | ⟨h1, _⟩ | ⟨_, h2⟩
  · exact (startsWith_disjoint (hk ▸ h1) hpre (by decide) (by decide)).elim
  · exact (startsWith_disjoint (hk ▸ h1) hpre (by decide) (by decide)).elim
  · exact (startsWith_disjoint (hk ▸ h1) hpre (by decide) (by decide)).elim
  · exact (startsWith_disjoint (hk ▸ h1) hpre (by decide) (by decide)).elim
  · rw [← hv]
    exact h2

theorem get?_type_of_prefix_cable (g : DependencyGraph) (hOK : NodesOK g) (k : String)
    (v : InfrastructureNode) (hget : g.nodes.get? k = some v)
    (hpre : strStartsWith k "cable:" = true) : v.type = NodeType.cable := by
  rcases jsMap_get?_eq_some _ _ _ hget with ⟨p, hp, hk, hv⟩
  rcases hOK p hp with ⟨_, h2⟩ | ⟨h1, _⟩ | ⟨h1, _⟩ | ⟨h1, _⟩ | ⟨h1, _⟩
  · rw [← hv]
    exact h2
  · exact (startsWith_disjoint (hk ▸ h1) hpre (by decide) (by decide)).elim
  · exact (startsWith_disjoint (hk ▸ h1) hpre (by decide) (by decide)).elim
  · exact (startsWith_disjoint (hk ▸ h1) hpre (by decide) (by decide)).elim
  · exact (startsWith_disjoint (hk ▸ h1) hpre (by decide) (by decide)).elim

theorem get?_type_of_prefix_pipeline (g : DependencyGraph) (hOK : NodesOK g) (k : String)
    (v : InfrastructureNode) (hget : g.nodes.get? k = some v)
    (hpre : strStartsWith k "pipeline:" = true) : v.type = NodeType.pipeline := by
  rcases jsMap_get?_eq_some _ _ _ hget with ⟨p, hp, hk, hv⟩
  rcases hOK p hp with ⟨h1, _⟩ | ⟨_, h2⟩ | ⟨h1, _⟩ | ⟨h1, _⟩ | ⟨h1, _⟩
  · exact (startsWith_disjoint (hk ▸ h1) hpre (by decide) (by decide)).elim
  · rw [← hv]
    exact h2
  · exact (startsWith_disjoint (hk ▸ h1) hpre (by decide) (by decide)).elim
  · exact (startsWith_disjoint (hk ▸ h1) hpre (by decide) (by decide)).elim
  · exact (startsWith_disjoint (hk ▸ h1) hpre (by decide) (by decide)).elim

theorem nodesOK_country_key (g : DependencyGraph) (hOK : NodesOK g) (k : String)
    (v : InfrastructureNode) (hget : g.nodes.get? k = some v)
    (htype : v.type = NodeType.country) : strStartsWith k "country:" = true := by
  rcases jsMap_get?_eq_some _ _ _ hget with ⟨p, hp, hk, hv⟩
  rcases hOK p hp with ⟨_, h2⟩ | ⟨_, h2⟩ | ⟨_, h2⟩ | ⟨_, h2⟩ | ⟨h1, _⟩
  · rw [hv] at h2
    rw [htype] at h2
    cases h2
  · rw [hv] at h2
    rw [htype] at h2
    cases h2
  · rw [hv] at h2
    rw [htype] at h2
    cases h2
  · rw [hv] at h2
    rw [htype] at h2
    cases h2
  · exact hk ▸ h1

/-! ## Outgoing-bucket shape lemmas -/

theorem addEdge_outOK (g : DependencyGraph) (e : DependencyEdge) (hOK : OutBucketsOK g)
    (hsrc : isInfraKey e.src) (hdst : strStartsWith e.dst "country:" = true) :
    OutBucketsOK (addEdge g e) := by
  have hOK1 : ∀ kv ∈ (if g.outgoing.has e.src then g.outgoing
      else g.outgoing.set e.src []).entries,
      isInfraKey kv.1 ∧ ∀ e' ∈ kv.2, strStartsWith e'.dst "country:" = true := by
    intro kv hkv
    split at hkv
    · exact hOK kv hkv
    · rcases jsMap_mem_entries_set _ _ _ _ hkv with h' | h'
      · rw [h']
        exact ⟨hsrc, by intro e' he'; cases he'⟩
      · exact hOK kv h'
  intro kv hkv
  have hkv' : kv ∈ ((if g.outgoing.has e.src then g.outgoing
      else g.outgoing.set e.src []).set e.src
        (((if g.outgoing.has e.src then g.outgoing
          else g.outgoing.set e.src []).get? e.src).getD [] ++ [e])).entries := hkv
  rcases jsMap_mem_entries_set _ _ _ _ hkv' with h' | h'
  · rw [h']
    refine ⟨hsrc, ?_⟩
    intro e' he'
    rcases List.mem_append.mp he' with h'' | h''
    · cases hget : (if g.outgoing.has e.src then g.outgoing
        else g.outgoing.set e.src []).get? e.src with
      | none => rw [hget] at h''; cases h''
      | some l =>
        rw [hget] at h''
        rcases jsMap_get?_eq_some _ _ _ hget with ⟨q, hq, _, hl⟩
        exact (hOK1 q hq).2 e' (by rw [hl]; simpa using h'')
    · have : e' = e := by simpa using h''
      rw [this]
      exact hdst
  · exact hOK1 kv h'

theorem foldl_addEdge_outOK {β : Type} (mk : β → DependencyEdge)
    (hmk : ∀ b, isInfraKey (mk b).src ∧ strStartsWith (mk b).dst "country:" = true) :
    ∀ (l : List β) (g : DependencyGraph), OutBucketsOK g →
      OutBucketsOK (l.foldl (fun g b => addEdge g (mk b)) g) := by
  intro l
  induction l with
  | nil => intro g h; exact h
  | cons b l ih =>
    intro g h
    rw [List.foldl_cons]
    exact ih _ (addEdge_outOK _ _ h (hmk b).1 (hmk b).2)

theorem cables_fold_outOK (l : List UnderseaCable) (g : DependencyGraph)
    (hOK : OutBucketsOK g) :
    OutBucketsOK (l.foldl (fun g cable =>
      let g := cable.countriesServed.foldl
        (fun g cs => addEdge g (cableServesEdge cable cs)) g
      cable.landingPoints.foldl (fun g lp => addEdge g (cableLandsAtEdge cable lp)) g)
      g) := by
  induction l generalizing g with
  | nil => exact hOK
  | cons cable l ih =>
    rw [List.foldl_cons]
    apply ih
    show OutBucketsOK (cable.landingPoints.foldl
      (fun g lp => addEdge g (cableLandsAtEdge cable lp))
      (cable.countriesServed.foldl (fun g cs => addEdge g (cableServesEdge cable cs)) g))
    apply foldl_addEdge_outOK
    · intro lp
      exact ⟨Or.inl (strStartsWith_append "cable:" cable.id),
        strStartsWith_append "country:" lp.country⟩
    · apply foldl_addEdge_outOK
      · intro cs
        exact ⟨Or.inl (strStartsWith_append "cable:" cable.id),
          strStartsWith_append "country:" cs.country⟩
      · exact hOK

theorem pipelines_fold_outOK (ps : List Pipeline) (g : DependencyGraph)
    (hOK : OutBucketsOK g) :
    OutBucketsOK (ps.foldl (fun g p => p.countries.foldl (fun g c =>
      let code := normCode c
      if g.nodes.has ("country:" ++ code) then addEdge g (pipelineServesEdge p code)
      else g) g) g) := by
  induction ps generalizing g with
  | nil => exact hOK
  | cons p ps ih =>
    rw [List.foldl_cons]
    apply ih
    have hinner : ∀ (cs : List String) (g : DependencyGraph), OutBucketsOK g →
        OutBucketsOK (cs.foldl (fun g c =>
          let code := normCode c
          if g.nodes.has ("country:" ++ code) then addEdge g (pipelineServesEdge p code)
          else g) g) := by
      intro cs
      induction cs with
      | nil => intro g h; exact h
      | cons c cs ihc =>
        intro g h
        rw [List.foldl_cons]
        apply ihc
        show OutBucketsOK (if g.nodes.has ("country:" ++ normCode c) = true
          then addEdge g (pipelineServesEdge p (normCode c)) else g)
        split
        · exact addEdge_outOK _ _ h (Or.inr (strStartsWith_append "pipeline:" p.id))
            (strStartsWith_append "country:" (normCode c))
        · exact h
    exact hinner p.countries g hOK

theorem addCablesAsNodes_outgoing (ds : Datasets) (g : DependencyGraph) :
    (addCablesAsNodes ds g).outgoing = g.outgoing := by
  unfold addCablesAsNodes
  refine foldl_graph_outgoing_eq _ ?_ _ _
  intro g' b
  rfl

theorem addPipelinesAsNodes_outgoing (ds : Datasets) (g : DependencyGraph) :
    (addPipelinesAsNodes ds g).outgoing = g.outgoing := by
  unfold addPipelinesAsNodes
  refine foldl_graph_outgoing_eq _ ?_ _ _
  intro g' b
  rfl

theorem addPortsAsNodes_outgoing (ds : Datasets) (g : DependencyGraph) :
    (addPortsAsNodes ds g).outgoing = g.outgoing := by
  unfold addPortsAsNodes
  refine foldl_graph_outgoing_eq _ ?_ _ _
  intro g' b
  rfl

theorem addChokepointsAsNodes_outgoing (ds : Datasets) (g : DependencyGraph) :
    (addChokepointsAsNodes ds g).outgoing = g.outgoing := by
  unfold addChokepointsAsNodes
  refine foldl_graph_outgoing_eq _ ?_ _ _
  intro g' b
  rfl

theorem addCountriesAsNodes_outgoing (ds : Datasets) (g : DependencyGraph) :
    (addCountriesAsNodes ds g).outgoing = g.outgoing := by
  unfold addCountriesAsNodes
  refine foldl_graph_outgoing_eq _ ?_ _ _
  intro g' b
  rfl

theorem nodePhase_outgoing_nil (ds : Datasets) :
    (addCountriesAsNodes ds (addChokepointsAsNodes ds (addPortsAsNodes ds
      (addPipelinesAsNodes ds (addCablesAsNodes ds initialGraph))))).outgoing.entries = [] := by
  rw [addCountriesAsNodes_outgoing, addChokepointsAsNodes_outgoing, addPortsAsNodes_outgoing,
    addPipelinesAsNodes_outgoing, addCablesAsNodes_outgoing]
  rfl

theorem buildGraphFresh_outOK (ds : Datasets) : OutBucketsOK (buildGraphFresh ds) := by
  unfold buildGraphFresh buildPipelineCountryEdges
  apply pipelines_fold_outOK
  unfold buildCableCountryEdges
  apply cables_fold_outOK
  intro kv hkv
  rw [nodePhase_outgoing_nil] at hkv
  cases hkv

theorem outgoing_get?_country_none (ds : Datasets) (k : String)
    (hpre : strStartsWith k "country:" = true) :
    (buildGraphFresh ds).outgoing.get? k = none := by
  apply jsMap_get?_eq_none
  intro p hp hpk
  rcases buildGraphFresh_outOK ds p hp with ⟨hinfra, _⟩
  rcases hinfra with h | h
  · rw [hpk] at h
    exact startsWith_disjoint h hpre (by decide) (by decide)
  · rw [hpk] at h
    exact startsWith_disjoint h hpre (by decide) (by decide)

theorem built_graph_one_hop (ds : Datasets) :
    ∀ (k : String) (l : List DependencyEdge),
      (buildGraphFresh ds).outgoing.get? k = some l →
      ∀ e ∈ l, ((buildGraphFresh ds).outgoing.get? e.dst).getD [] = [] := by
  intro k l hget e he
  rcases jsMap_get?_eq_some _ _ _ hget with ⟨p, hp, _, hl⟩
  rcases buildGraphFresh_outOK ds p hp with ⟨_, hdsts⟩
  have hdst : strStartsWith e.dst "country:" = true := hdsts e (by rw [hl]; exact he)
  rw [outgoing_get?_country_none ds e.dst hdst]
  rfl

theorem expandEdges_queue_mem (g : DependencyGraph) (d : ℚ) (depth : Nat)
    (path : List String) :
    ∀ (es : List DependencyEdge) (s : BfsState) (q : QItem),
      q ∈ (expandEdges g d depth path es s).queue →
      q ∈ s.queue ∨ ∃ e ∈ es, q = ⟨e.dst, depth + 1, path ++ [e.dst]⟩ := by
  intro es
  induction es with
  | nil => intro s q h; exact Or.inl h
  | cons e es ih =>
    intro s q h
    unfold expandEdges at h
    split at h
    · rcases ih _ _ h with h' | ⟨e', he', heq⟩
      · exact Or.inl h'
      · exact Or.inr ⟨e', List.mem_cons_of_mem _ he', heq⟩
    · split at h
      · rcases ih _ _ h with h' | ⟨e', he', heq⟩
        · exact Or.inl h'
        · exact Or.inr ⟨e', List.mem_cons_of_mem _ he', heq⟩
      · split at h
        · rcases ih _ _ h with h' | ⟨e', he', heq⟩
          · exact Or.inl h'
          · exact Or.inr ⟨e', List.mem_cons_of_mem _ he', heq⟩
        · rcases ih _ _ h with h' | ⟨e', he', heq⟩
          · rcases List.mem_append.mp h' with h'' | h''
            · exact Or.inl h''
            · exact Or.inr ⟨e, List.mem_cons_self _ _, by simpa using h''⟩
          · exact Or.inr ⟨e', List.mem_cons_of_mem _ he', heq⟩

theorem cascadeLoop_one_hop (g : DependencyGraph) (d : ℚ)
    (H : ∀ (k : String) (l : List DependencyEdge), g.outgoing.get? k = some l →
      ∀ e ∈ l, (g.outgoing.get? e.dst).getD [] = []) :
    ∀ (fuel : Nat) (s : BfsState),
      (∀ q ∈ s.queue, (q.depth = 0 ∧ q.path = [q.nodeId]) ∨
        (g.outgoing.get? q.nodeId).getD [] = []) →
      (∀ a ∈ s.affected.values, a.pathLength = 1 ∧ a.dependencyChain.length = 2) →
      ∀ a ∈ (cascadeLoop g d fuel s).affected.values,
        a.pathLength = 1 ∧ a.dependencyChain.length = 2 := by
  intro fuel
  induction fuel with
  | zero => intro s hq ha a h; exact ha a h
  | succ fuel ih =>
    intro s hq ha a h
    unfold cascadeLoop at h
    split at h
    · exact ha a h
    · rename_i item rest hqueue
      split at h
      · refine ih { s with queue := rest } ?_ ha a h
        intro q hqr
        exact hq q (by rw [hqueue]; exact List.mem_cons_of_mem _ hqr)
      · rcases hq item (by rw [hqueue]; exact List.mem_cons_self _ _) with ⟨hd0, hp0⟩ | hempty
        · refine ih (expandEdges g d item.depth item.path
            ((g.outgoing.get? item.nodeId).getD []) { s with queue := rest }) ?_ ?_ a h
          · intro q hqmem
            rcases expandEdges_queue_mem g d item.depth item.path _ _ _ hqmem with h' | ⟨e, he, heq⟩
            · exact hq q (by rw [hqueue]; exact List.mem_cons_of_mem _ h')
            · right
              cases hget : g.outgoing.get? item.nodeId with
              | none => rw [hget] at he; cases he
              | some l =>
                rw [hget] at he
                rw [heq]
                exact H item.nodeId l hget e (by simpa using he)
          · intro x hx
            rcases expandEdges_values_mem g d item.depth item.path _ _ _ hx with h' | ⟨e, he, target, _, _, hxe⟩
            · exact ha x h'
            · rw [hxe, hd0, hp0]
              constructor
              · rfl
              · rfl
        · refine ih (expandEdges g d item.depth item.path
              ((g.outgoing.get? item.nodeId).getD []) { s with queue := rest }) ?_ ?_ a h
          · rw [show (g.outgoing.get? item.nodeId).getD [] = [] from hempty]
            intro q hqmem
            exact hq q (by rw [hqueue]; exact List.mem_cons_of_mem _ hqmem)
          · rw [show (g.outgoing.get? item.nodeId).getD [] = [] from hempty]
            exact ha

/-! ## Claim theorem: one-hop structure of built graphs -/

/-- Claim C10: in any graph `buildGraph` produces, every edge runs from a
cable- or pipeline-typed node to a country-typed node, country nodes have
no outgoing edges, and consequently every affected node of any cascade
result is a node reached in exactly one hop — `pathLength` 1 and a
two-entry dependency chain — so propagation beyond depth 1 is vacuous on
these graphs. -/
theorem built_graph_edges_one_hop (ds : Datasets) (sourceId : String) (d : ℚ)
    (r : CascadeResult) (h : calculateCascade ds sourceId d = some r) :
    (∀ e ∈ (buildGraphFresh ds).edges,
      (∃ v, (buildGraphFresh ds).nodes.get? e.dst = some v ∧ v.type = NodeType.country) ∧
      (∃ w, (buildGraphFresh ds).nodes.get? e.src = some w ∧
        (w.type = NodeType.cable ∨ w.type = NodeType.pipeline))) ∧
    (∀ id n, (buildGraphFresh ds).nodes.get? id = some n → n.type = NodeType.country →
      ((buildGraphFresh ds).outgoing.get? id).getD [] = []) ∧
    (∀ a ∈ r.affectedNodes, a.pathLength = 1 ∧ a.dependencyChain.length = 2) := by
  refine ⟨?_, ?_, ?_⟩
  · intro e he
    rcases built_edges_mem ds e he with ⟨cable, hcab, cs, hcs, he'⟩ |
      ⟨cable, hcab, lp, hlp, he'⟩ | ⟨p, hp, c, hc, he'⟩
    · subst he'
      constructor
      · rcases jsMap_get?_isSome_of_has _ _
          (buildGraphFresh_has_country ds cs.country
            (mem_collectCountries_of_served ds cable cs hcab hcs)) with ⟨v, hv⟩
        exact ⟨v, hv, get?_type_of_prefix_country _ (buildGraphFresh_nodesOK ds) _ _ hv
          (strStartsWith_append "country:" cs.country)⟩
      · rcases jsMap_get?_isSome_of_has _ _
          (buildGraphFresh_has_cable ds cable hcab) with ⟨w, hw⟩
        exact ⟨w, hw, Or.inl (get?_type_of_prefix_cable _ (buildGraphFresh_nodesOK ds) _ _ hw
          (strStartsWith_append "cable:" cable.id))⟩
    · subst he'
      constructor
      · rcases jsMap_get?_isSome_of_has _ _
          (buildGraphFresh_has_country ds lp.country
            (mem_collectCountries_of_landing ds cable lp hcab hlp)) with ⟨v, hv⟩
        exact ⟨v, hv, get?_type_of_prefix_country _ (buildGraphFresh_nodesOK ds) _ _ hv
          (strStartsWith_append "country:" lp.country)⟩
      · rcases jsMap_get?_isSome_of_has _ _
          (buildGraphFresh_has_cable ds cable hcab) with ⟨w, hw⟩
        exact ⟨w, hw, Or.inl (get?_type_of_prefix_cable _ (buildGraphFresh_nodesOK ds) _ _ hw
          (strStartsWith_append "cable:" cable.id))⟩
    · subst he'
      constructor
      · rcases jsMap_get?_isSome_of_has _ _
          (buildGraphFresh_has_country ds (normCode c)
            (mem_collectCountries_of_pipeline ds p c hp hc)) with ⟨v, hv⟩
        exact ⟨v, hv, get?_type_of_prefix_country _ (buildGraphFresh_nodesOK ds) _ _ hv
          (strStartsWith_append "country:" (normCode c))⟩
      · rcases jsMap_get?_isSome_of_has _ _
          (buildGraphFresh_has_pipeline ds p hp) with ⟨w, hw⟩
        exact ⟨w, hw, Or.inr (get?_type_of_prefix_pipeline _ (buildGraphFresh_nodesOK ds) _ _ hw
          (strStartsWith_append "pipeline:" p.id))⟩
  · intro id n hget htype
    rw [outgoing_get?_country_none ds id
      (nodesOK_country_key _ (buildGraphFresh_nodesOK ds) _ _ hget htype)]
    rfl
  · unfold calculateCascade at h
    rcases calculateCascadeOnGraph_some _ _ _ _ _ h with ⟨source, _, _, haff, _, _⟩
    intro a ha
    rw [haff] at ha
    unfold finalState at ha
    refine cascadeLoop_one_hop _ d (built_graph_one_hop ds) _ _ ?_ ?_ a ha
    · intro q hq
      have : q = ⟨sourceId, 0, [sourceId]⟩ := by simpa [initState] using hq
      rw [this]
      exact Or.inl ⟨rfl, rfl⟩
    · intro x hx
      simp [initState, JsMap.empty, JsMap.values] at hx

/-- Witness for `built_graph_edges_one_hop` at the single-hop scenario. -/
theorem built_graph_edges_one_hop_witness :
    calculateCascade scenarioDS "cable:c1" 1 = some scenarioResult ∧
    ∀ a ∈ scenarioResult.affectedNodes, a.pathLength = 1 ∧ a.dependencyChain.length = 2 :=
  ⟨scenario_calc_eq,
   (built_graph_edges_one_hop scenarioDS "cable:c1" 1 scenarioResult scenario_calc_eq).2.2⟩

/-! ## Country-impact ordering -/

instance countryImpactRel_total : IsTotal CascadeCountryImpact countryImpactRel := by
  constructor
  intro a b
  unfold countryImpactRel countryImpactLE
  by_cases h : severityOrderIdx a.impactLevel = severityOrderIdx b.impactLevel
  · rw [if_pos h, if_pos h.symm]
    rcases le_total a.affectedCapacity b.affectedCapacity with h' | h'
    · right
      simpa using h'
    · left
      simpa using h'
  · rw [if_neg h, if_neg (fun hh => h hh.symm)]
    simp only [decide_eq_true_eq]
    omega

instance countryImpactRel_trans : IsTrans CascadeCountryImpact countryImpactRel := by
  constructor
  intro a b c hab hbc
  unfold countryImpactRel countryImpactLE at hab hbc ⊢
  by_cases h1 : severityOrderIdx a.impactLevel = severityOrderIdx b.impactLevel
  · rw [if_pos h1] at hab
    by_cases h2 : severityOrderIdx b.impactLevel = severityOrderIdx c.impactLevel
    · rw [if_pos h2] at hbc
      rw [if_pos (h1.trans h2)]
      simp only [decide_eq_true_eq] at hab hbc ⊢
      exact le_trans hbc hab
    · rw [if_neg h2] at hbc
      simp only [decide_eq_true_eq] at hbc
      have h3 : ¬ severityOrderIdx a.impactLevel = severityOrderIdx c.impactLevel := by omega
      rw [if_neg h3]
      simp only [decide_eq_true_eq]
      omega
  · rw [if_neg h1] at hab
    simp only [decide_eq_true_eq] at hab
    by_cases h2 : severityOrderIdx b.impactLevel = severityOrderIdx c.impactLevel
    · have h3 : ¬ severityOrderIdx a.impactLevel = severityOrderIdx c.impactLevel := by omega
      rw [if_neg h3]
      simp only [decide_eq_true_eq]
      omega
    · rw [if_neg h2] at hbc
      simp only [decide_eq_true_eq] at hbc
      have h3 : ¬ severityOrderIdx a.impactLevel = severityOrderIdx c.impactLevel := by omega
      rw [if_neg h3]
      simp only [decide_eq_true_eq]
      omega

theorem countryImpactsOf_length (cables : List UnderseaCable) (sourceId : String) :
    ∀ (entries : List (String × CascadeAffectedNode)),
      (countryImpactsOf cables sourceId entries).length
        = (entries.filter (fun p => p.2.node.type = NodeType.country)).length := by
  intro entries
  induction entries with
  | nil => rfl
  | cons p l ih =>
    unfold countryImpactsOf at ih ⊢
    rw [List.filterMap_cons, List.filter_cons]
    by_cases h : p.2.node.type = NodeType.country
    · rw [if_pos h]
      simp [h, ih]
    · rw [if_neg h]
      simp [h, ih]

theorem mem_countryImpactsOf (cables : List UnderseaCable) (sourceId : String)
    (entries : List (String × CascadeAffectedNode)) (ci : CascadeCountryImpact)
    (h : ci ∈ countryImpactsOf cables sourceId entries) :
    ci.affectedCapacity = getCapacityForCountry cables sourceId ci.country ∧
    ∃ p ∈ entries, p.2.node.type = NodeType.country ∧ ci.countryName = p.2.node.name ∧
      ci.impactLevel = p.2.impactLevel := by
  unfold countryImpactsOf at h
  rcases List.mem_filterMap.mp h with ⟨p, hp, heq⟩
  split at heq
  · rename_i htype
    have heq2 : some (⟨countryCodeOf p.1 p.2.node, p.2.node.name, p.2.impactLevel,
        getCapacityForCountry cables sourceId (countryCodeOf p.1 p.2.node)⟩ :
          CascadeCountryImpact) = some ci := heq
    cases Option.some.inj heq2
    exact ⟨rfl, p, hp, htype, rfl, rfl⟩
  · cases heq

/-! ## Claim theorem: country-impact aggregation and ordering -/

/-- Claim C6: the country-impact sequence contains exactly the country-typed
affected entries, each carrying the source cable's original capacity share
for that country for cable sources (the fixed 0.1 placeholder otherwise),
sorted ascending by severity rank and, within equal severity, descending by
affected capacity. -/
theorem country_impacts_sorted (ds : Datasets) (sourceId : String) (d : ℚ)
    (r : CascadeResult) (h : calculateCascade ds sourceId d = some r) :
    List.Sorted countryImpactRel r.countriesAffected ∧
    (∃ entries : List (String × CascadeAffectedNode),
      r.affectedNodes = entries.map Prod.snd ∧
      r.countriesAffected.Perm (countryImpactsOf ds.cables sourceId entries) ∧
      r.countriesAffected.length
        = (entries.filter (fun p => p.2.node.type = NodeType.country)).length) ∧
    (∀ ci ∈ r.countriesAffected,
      ci.affectedCapacity = getCapacityForCountry ds.cables sourceId ci.country ∧
      ∃ a ∈ r.affectedNodes, a.node.type = NodeType.country ∧
        ci.countryName = a.node.name ∧ ci.impactLevel = a.impactLevel) ∧
    (¬ strStartsWith sourceId "cable:" = true →
      ∀ code, getCapacityForCountry ds.cables sourceId code = 0.1) ∧
    (∀ code cb csd, strStartsWith sourceId "cable:" = true →
      ds.cables.find? (fun c => c.id = replaceFirstStr sourceId "cable:") = some cb →
      cb.countriesServed.find? (fun cs => cs.country = code) = some csd →
      getCapacityForCountry ds.cables sourceId code = csd.capacityShare) := by
  unfold calculateCascade at h
  rcases calculateCascadeOnGraph_some _ _ _ _ _ h with ⟨source, hs, hsrc, haff, hcty, hred⟩
  have hperm : r.countriesAffected.Perm (countryImpactsOf ds.cables sourceId
      (finalState (buildGraphFresh ds) sourceId d).affected.entries) := by
    rw [hcty]
    exact List.perm_insertionSort countryImpactRel _
  refine ⟨?_, ⟨(finalState (buildGraphFresh ds) sourceId d).affected.entries,
    by rw [haff]; rfl, hperm, ?_⟩, ?_, ?_, ?_⟩
  · rw [hcty]
    exact List.sorted_insertionSort countryImpactRel _
  · rw [hperm.length_eq, countryImpactsOf_length]
  · intro ci hci
    rcases mem_countryImpactsOf _ _ _ _ (hperm.mem_iff.mp hci) with
      ⟨hcap, p, hp, htype, hname, himp⟩
    refine ⟨hcap, p.2, ?_, htype, hname, himp⟩
    rw [haff]
    exact List.mem_map_of_mem Prod.snd hp
  · intro hnc code
    unfold getCapacityForCountry
    rw [if_neg hnc]
  · intro code cb csd hstart hfind hcsd
    unfold getCapacityForCountry
    rw [if_pos hstart]
    show (match ds.cables.find? (fun c => c.id = replaceFirstStr sourceId "cable:") with
      | some cable =>
        (match cable.countriesServed.find? (fun cs => cs.country = code) with
          | some countryData => countryData.capacityShare
          | none => 0)
      | none => (0 : ℚ)) = csd.capacityShare
    rw [hfind]
    show (match cb.countriesServed.find? (fun cs => cs.country = code) with
      | some countryData => countryData.capacityShare
      | none => (0 : ℚ)) = csd.capacityShare
    rw [hcsd]

/-- Witness for `country_impacts_sorted` at the single-hop scenario. -/
theorem country_impacts_sorted_witness :
    calculateCascade scenarioDS "cable:c1" 1 = some scenarioResult ∧
    List.Sorted countryImpactRel scenarioResult.countriesAffected :=
  ⟨scenario_calc_eq,
   (country_impacts_sorted scenarioDS "cable:c1" 1 scenarioResult scenario_calc_eq).1⟩
